import Mathlib

/-!
# Verification of the single-authority transaction-processing core

This file gives a shallow embedding of the authority logic of
`sui_core/src/authority.rs` (check_one_lock, check_locks, handle_order,
handle_confirmation_order, execute_order, transfer, get_unwrapped_object_ids)
together with models of the collaborators the authority calls into
(the persistent store, the temporary store, gas accounting, message types),
which are modelled from the specification since their sources are not part
of this snapshot.  Machine integers are modelled as `Nat`; the one place
where two's-complement behaviour matters (the bitwise NOT in `transfer`'s
arity guard) is modelled explicitly against `USIZE_MAX`.

Rust `Result` is modelled by `Except SuiError`; a Rust panic
(`unwrap` on `None`) is modelled by the `panicked` constructor of `RunResult`.
-/

namespace Sui

/-- Association-list lookup keyed by a decidable-equality key type.
Models `BTreeMap`/`HashMap` lookup in the Rust collaborators. -/
def alookup {κ : Type} {α : Type} [DecidableEq κ] : List (κ × α) → κ → Option α
  | [], _ => none
  | (k, v) :: rest, k' => if k = k' then some v else alookup rest k'

/-- Remove every binding of key `k`. -/
def aerase {κ : Type} {α : Type} [DecidableEq κ] (l : List (κ × α)) (k : κ) :
    List (κ × α) :=
  l.filter (fun p => decide (p.1 ≠ k))

/-- Insert (or overwrite) the binding of key `k`. -/
def ainsert {κ : Type} {α : Type} [DecidableEq κ] (l : List (κ × α)) (k : κ) (v : α) :
    List (κ × α) :=
  (k, v) :: aerase l k

/-- Insert a batch of bindings, left to right. -/
def ainsertMany {κ : Type} {α : Type} [DecidableEq κ] (l : List (κ × α))
    (ps : List (κ × α)) : List (κ × α) :=
  ps.foldl (fun acc p => ainsert acc p.1 p.2) l

/-- `SuiAddress`: a 20-byte account or object address, modelled as `Nat`. -/
abbrev SuiAddress : Type := Nat

/-- `ObjectID`: stable identity of an object, modelled as `Nat`. -/
abbrev ObjectID : Type := Nat

/-- Transaction digest, modelled as `Nat`. -/
abbrev TransactionDigest : Type := Nat

/-- Modelled from the spec: the genesis sentinel transaction digest,
excluded from certificate dependency sets. -/
def TransactionDigest.genesis : TransactionDigest := 0

/-- Modelled from the spec: the reserved tombstone digest marking a deleted
object version in the parent (provenance) index, distinct from any real
content digest used in this development. -/
def OBJECT_DIGEST_DELETED : Nat := 999999937

/-- Largest value of a `u64`/`usize`. -/
def USIZE_MAX : Nat := 2 ^ 64 - 1

/-- Rust bitwise NOT on `usize` (for arguments below `2^64`):
`!n = usize::MAX - n`.  Used by the arity guard in `transfer`. -/
def rustNotUsize (n : Nat) : Nat := USIZE_MAX - n

/-- Modelled from the spec: `SequenceNumber::max()`, the largest admissible
object version. -/
def SEQUENCE_NUMBER_MAX : Nat := USIZE_MAX

/-- `ObjectRef` = (object id, version/sequence number, content digest):
identifies one exact historical state of an object. -/
structure ObjectRef where
  id : ObjectID
  seq : Nat
  digest : Nat
deriving DecidableEq, Repr

/-- Modelled from the spec: a versioned object.  `payload` abstracts the Move
package / Move value contents; `isPackage` discriminates packages;
`readOnly` is the immutability marker; `gasBalance` is the value carried by a
gas coin; `sizeBytes` drives the transfer cost function. -/
structure Object where
  id : ObjectID
  version : Nat
  owner : SuiAddress
  readOnly : Bool
  isPackage : Bool
  digest : Nat
  gasBalance : Nat
  sizeBytes : Nat
  previous_transaction : TransactionDigest
deriving DecidableEq, Repr

/-- `object.to_object_reference()`. -/
def Object.ref (o : Object) : ObjectRef := ⟨o.id, o.version, o.digest⟩

/-- Modelled from the spec: writing a new version of an object ("a new
version is written, never edited in place"). -/
def Object.bump (o : Object) : Object := { o with version := o.version + 1 }

/-- Modelled from the spec: `Object::transfer(new_owner)` re-owns the object
and advances it to the next version (spec scenario: "A now v1 owned by Bob"). -/
def Object.transfer (o : Object) (recipient : SuiAddress) : Object :=
  { o with owner := recipient, version := o.version + 1 }

/-- `ObjectID → SuiAddress` conversion (`object.id().into()`). -/
def idToAddress (i : ObjectID) : SuiAddress := i

/-- `InputObjectKind`: declared input reference, discriminating a package
reference (by id only) from an object reference (id, version, digest). -/
inductive InputObjectKind where
  | MovePackage (id : ObjectID)
  | MoveObject (r : ObjectRef)
deriving DecidableEq, Repr

/-- `InputObjectKind::object_id()`. -/
def InputObjectKind.objectId : InputObjectKind → ObjectID
  | .MovePackage i => i
  | .MoveObject r => r.id

/-- The error taxonomy of the authority (`SuiError`), restricted to the
variants reachable from the embedded code paths. -/
inductive SuiError where
  | MoveObjectAsPackage (object_id : ObjectID)
  | InvalidSequenceNumber
  | UnexpectedSequenceNumber (object_id : ObjectID) (expected_sequence : Nat)
  | InvalidObjectDigest (object_id : ObjectID) (expected_digest : Nat)
  | InsufficientGas (error : String)
  | IncorrectSigner
  | ObjectNotFound (object_id : ObjectID)
  | ObjectInputArityViolation
  | DuplicateObjectRefInput
  | CannotTransferReadOnlyObject
  | InvalidSignature
  | InvalidCertificate
  | OrderLockDoesNotExist
  | LockConflict
  | LockErrors (errors : List SuiError)

/-- `ExecutionStatus`: carries the gas cost also on failure. -/
inductive ExecutionStatus where
  | Success (gas_used : Nat)
  | Failure (gas_used : Nat) (error : SuiError)

/-- The kind of an order: `Transfer`, `Call` or `Publish`. -/
inductive OrderKind where
  | Transfer (recipient : SuiAddress) (object_ref : ObjectRef)
  | Call (package : ObjectRef) (module : Nat) (function : Nat)
      (type_arguments : List Nat) (object_arguments : List ObjectRef)
      (pure_arguments : List Nat) (gas_budget : Nat)
  | Publish (modules : List Nat) (gas_budget : Nat)
deriving DecidableEq, Repr

/-- Modelled from the spec: an `Order` (client-submitted transaction
request).  `sigOk` models whether the sender signature verifies;
`txDigest` models the order's content digest (used as a store key). -/
structure Order where
  sender : SuiAddress
  kind : OrderKind
  gasRef : ObjectRef
  sigOk : Bool
  txDigest : TransactionDigest
deriving DecidableEq, Repr

/-- `order.gas_payment_object_ref()`. -/
def Order.gas_payment_object_ref (o : Order) : ObjectRef := o.gasRef

/-- `order.digest()`. -/
def Order.digest (o : Order) : TransactionDigest := o.txDigest

/-- `order.sender_address()`. -/
def Order.sender_address (o : Order) : SuiAddress := o.sender

/-- Modelled from the spec: `order.check_signature()` verifies the order's
signature against the declared sender. -/
def Order.check_signature (o : Order) : Except SuiError Unit :=
  if o.sigOk then .ok () else .error .InvalidSignature

/-- Modelled from the spec: `order.input_objects()` — the declared inputs; the
gas object reference is always appended last, and for `Call` the package is
second-to-last ("the last input in the resolved list is always the gas-payment
object"; "second-to-last input is the Move package; remaining are Move object
arguments"). -/
def Order.input_objects (o : Order) : List InputObjectKind :=
  (match o.kind with
    | .Transfer _ object_ref => [InputObjectKind.MoveObject object_ref]
    | .Call package _ _ _ object_arguments _ _ =>
        object_arguments.map InputObjectKind.MoveObject ++
          [InputObjectKind.MovePackage package.id]
    | .Publish _ _ => []) ++ [InputObjectKind.MoveObject o.gasRef]

/-- `SignedOrder`: an order together with the authority's signature. -/
structure SignedOrder where
  order : Order
  authority : Nat
  signature : Nat
deriving DecidableEq, Repr

/-- Modelled from the spec: `SignedOrder::new` — deterministic (ed25519)
signing by the authority's pinned signing capability. -/
def SignedOrder.new (order : Order) (authority : Nat) (secret : Nat) : SignedOrder :=
  ⟨order, authority, secret + order.txDigest⟩

/-- Modelled from the spec: committee exposing a quorum threshold. -/
structure Committee where
  quorum : Nat
deriving DecidableEq, Repr

/-- `CertifiedOrder`: an order plus a quorum of authority signatures
(opaque at this layer, only checked against the committee). -/
structure CertifiedOrder where
  order : Order
  sigCount : Nat
deriving DecidableEq, Repr

/-- Modelled from the spec: `certificate.check(committee)` validates the
certificate against the committee's quorum threshold. -/
def CertifiedOrder.check (c : CertifiedOrder) (committee : Committee) :
    Except SuiError Unit :=
  if committee.quorum ≤ c.sigCount then .ok () else .error .InvalidCertificate

/-- `ConfirmationOrder`: wrapper around the certificate. -/
structure ConfirmationOrder where
  certificate : CertifiedOrder
deriving DecidableEq, Repr

/-- Modelled from the spec: signed effects content (authority signature over
transaction digest, dependency set, execution status, gas object ref). -/
structure SignedOrderEffects where
  transaction_digest : TransactionDigest
  dependencies : List TransactionDigest
  statusIsSuccess : Bool
  gas_used : Nat
  gas_object_id : ObjectID
  authority : Nat
  signature : Nat
deriving DecidableEq, Repr

/-- `OrderInfoResponse`: what the store records per transaction digest. -/
structure OrderInfoResponse where
  signed_order : Option SignedOrder
  certified_order : Option CertifiedOrder
  signed_effects : Option SignedOrderEffects
deriving DecidableEq, Repr

/-- Outcome of running a fallible, possibly-panicking piece of Rust:
`panicked` models an `unwrap()` on `None`. -/
inductive RunResult (α : Type) where
  | panicked
  | err (e : SuiError)
  | ok (a : α)

namespace gas

/-- Modelled from the spec: the minimum gas charged for a transfer,
"charged minimum transfer gas, not free". -/
def MIN_OBJ_TRANSFER_GAS : Nat := 8

/-- Modelled from the spec: "a fixed cost function of the object size". -/
def calculate_object_transfer_cost (o : Object) : Nat := o.sizeBytes

/-- Modelled from the spec: fallible gas deduction; on success the gas coin's
balance is reduced and it advances to a new version, on failure the gas
object is untouched. -/
def try_deduct_gas (o : Object) (amount : Nat) : Except SuiError Object :=
  if amount ≤ o.gasBalance then
    .ok { o with gasBalance := o.gasBalance - amount, version := o.version + 1 }
  else
    .error (.InsufficientGas "Insufficient gas balance")

/-- Modelled from the spec: infallible gas deduction used on the failure
path ("this gas deduction cannot fail"); the gas object carries the deducted
`gas_used` at a new version. -/
def deduct_gas (o : Object) (amount : Nat) : Object :=
  { o with gasBalance := o.gasBalance - amount, version := o.version + 1 }

/-- Modelled from the spec: the minimum balance the gas-payment object must
hold for an order (the gas budget for `Call`/`Publish`, the minimum transfer
gas for `Transfer`). -/
def gasRequirement (o : Order) : Nat :=
  match o.kind with
  | .Transfer _ _ => MIN_OBJ_TRANSFER_GAS
  | .Call _ _ _ _ _ _ gas_budget => gas_budget
  | .Publish _ gas_budget => gas_budget

/-- Modelled from the spec: `gas::check_gas_requirement(order, gas_object)`. -/
def check_gas_requirement (o : Order) (gas_object : Object) : Except SuiError Unit :=
  if gasRequirement o ≤ gas_object.gasBalance then .ok ()
  else .error (.InsufficientGas "Gas balance is lower than the needed amount")

end gas

/-- One step of the "ensure active inputs mutated" pass: skip references
already written or deleted, otherwise re-write the input snapshot object at
the next version. -/
def ensureStep (objects : List (ObjectID × Object)) (deleted : List ObjectID)
    (w : List (ObjectID × Object)) (r : ObjectRef) : List (ObjectID × Object) :=
  if (alookup w r.id).isSome || r.id ∈ deleted then w
  else
    match alookup objects r.id with
    | some o => ainsert w r.id o.bump
    | none => w

/-- Modelled from the spec: the Temporary Store, "a write-buffering layer
scoped to one execution".  `objects` is the snapshot of the resolved inputs,
`active_inputs` the references of the mutable (non-read-only) inputs. -/
structure AuthorityTemporaryStore where
  objects : List (ObjectID × Object)
  active_inputs : List ObjectRef
  written : List (ObjectID × Object)
  deleted : List ObjectID
  digest : TransactionDigest

namespace AuthorityTemporaryStore

/-- Modelled from the spec: `AuthorityTemporaryStore::new`, seeded with the
resolved inputs of one execution. -/
def new (inputs : List Object) (digest : TransactionDigest) :
    AuthorityTemporaryStore where
  objects := inputs.map (fun o => (o.id, o))
  active_inputs := (inputs.filter (fun o => !o.readOnly)).map Object.ref
  written := []
  deleted := []
  digest := digest

/-- Modelled from the spec: buffer a write. -/
def write_object (ts : AuthorityTemporaryStore) (o : Object) :
    AuthorityTemporaryStore :=
  { ts with written := ainsert ts.written o.id o }

/-- Modelled from the spec: buffer a delete. -/
def delete_object (ts : AuthorityTemporaryStore) (id : ObjectID) :
    AuthorityTemporaryStore :=
  { ts with deleted := id :: ts.deleted }

/-- Modelled from the spec: `reset()` discards all buffered writes. -/
def reset (ts : AuthorityTemporaryStore) : AuthorityTemporaryStore :=
  { ts with written := [], deleted := [] }

/-- Modelled from the spec: "after dispatch, every object that was an input
and remains mutable must appear in the write set even if unchanged by the
logic itself" — any active input neither written nor deleted is re-written
at the next version. -/
def ensure_active_inputs_mutated (ts : AuthorityTemporaryStore) :
    AuthorityTemporaryStore :=
  { ts with
    written := ts.active_inputs.foldl (ensureStep ts.objects ts.deleted) ts.written }

/-- Modelled from the spec: reclassify unwrapped objects by patching their
version before finalizing effects. -/
def patch_unwrapped_object_version (ts : AuthorityTemporaryStore)
    (ids : List ObjectID) : AuthorityTemporaryStore :=
  { ts with
    written := ts.written.map
      (fun p => if p.1 ∈ ids then (p.1, p.2.bump) else p) }

/-- Modelled from the spec: produce the signed effects (authority signature
over transaction digest, dependency set, execution status, gas object ref). -/
def to_signed_effects (_ts : AuthorityTemporaryStore) (name : Nat) (secret : Nat)
    (transaction_digest : TransactionDigest)
    (dependencies : List TransactionDigest) (status : ExecutionStatus)
    (gas_object_id : ObjectID) : SignedOrderEffects :=
  { transaction_digest := transaction_digest
    dependencies := dependencies
    statusIsSuccess := match status with | .Success _ => true | .Failure _ _ => false
    gas_used := match status with | .Success g => g | .Failure g _ => g
    gas_object_id := gas_object_id
    authority := name
    signature := secret + transaction_digest }

end AuthorityTemporaryStore

/-- The behaviour of the external Move execution adapter at its interface
boundary: given the package, the object arguments and the gas object, it
produces a list of buffered writes, a list of buffered deletes, and an
`ExecutionStatus` — or a hard error.  The adapter is out of scope and is
therefore a parameter of the embedding. -/
structure Adapter where
  execFn : Object → List Object → Object →
    Except SuiError (List Object × List ObjectID × ExecutionStatus)
  publishFn : SuiAddress → List Nat → Nat → Object →
    Except SuiError (List Object × List ObjectID × ExecutionStatus)

/-- Apply an adapter's buffered writes and deletes to the temporary store. -/
def applyAdapterWrites (ts : AuthorityTemporaryStore) (ws : List Object)
    (ds : List ObjectID) : AuthorityTemporaryStore :=
  ds.foldl AuthorityTemporaryStore.delete_object
    (ws.foldl AuthorityTemporaryStore.write_object ts)

/-- Modelled from the spec: the persistent store behind the authority
(`AuthorityStore`): versioned objects, per-`ObjectRef` lock slots
(absent = no entry, `none` = initialized/unlocked, `some` = locked),
responses per transaction digest, and the append-only parent/provenance
index. -/
structure AuthorityStore where
  objects : List (ObjectID × Object)
  order_locks : List (ObjectRef × Option SignedOrder)
  signedOrders : List (TransactionDigest × SignedOrder)
  certificates : List (TransactionDigest × CertifiedOrder)
  signedEffects : List (TransactionDigest × SignedOrderEffects)
  parents : List (ObjectRef × TransactionDigest)

namespace AuthorityStore

/-- Modelled from the spec: `get_object(id)`. -/
def get_object (s : AuthorityStore) (id : ObjectID) : Option Object :=
  alookup s.objects id

/-- Modelled from the spec: `get_order_info(tx_digest)` assembles the
response recorded for a transaction digest. -/
def get_order_info (s : AuthorityStore) (d : TransactionDigest) :
    OrderInfoResponse where
  signed_order := alookup s.signedOrders d
  certified_order := alookup s.certificates d
  signed_effects := alookup s.signedEffects d

/-- Modelled from the spec (§4.1): `set_order_lock(mutable_input_objects,
signed_order)`: fails if a slot is absent, fails with `LockConflict` if a
slot is locked to a different order, is a no-op on a slot locked to the
identical order; either all locks are written or none; the signed order is
recorded for its transaction digest. -/
def set_order_lock (s : AuthorityStore) (refs : List ObjectRef)
    (signed_order : SignedOrder) : Except SuiError AuthorityStore :=
  match refs.findSome? (fun r =>
      match alookup s.order_locks r with
      | none => some SuiError.OrderLockDoesNotExist
      | some none => none
      | some (some existing) =>
          if existing = signed_order then none else some SuiError.LockConflict) with
  | some e => .error e
  | none =>
      .ok { s with
        order_locks :=
          ainsertMany s.order_locks (refs.map (fun r => (r, some signed_order)))
        signedOrders :=
          ainsert s.signedOrders signed_order.order.txDigest signed_order }

/-- Modelled from the spec: commit one written object: store the new
version, initialize its lock slot, and record provenance. -/
def commit_written (s : AuthorityStore) (d : TransactionDigest) (o : Object) :
    AuthorityStore :=
  { s with
    objects := ainsert s.objects o.id o
    order_locks := ainsert s.order_locks o.ref none
    parents := ainsert s.parents o.ref d }

/-- Modelled from the spec: commit one deleted object: remove it and record
a tombstone provenance entry at the reserved deleted digest. -/
def commit_deleted (s : AuthorityStore) (d : TransactionDigest) (id : ObjectID) :
    AuthorityStore :=
  let ver := match alookup s.objects id with | some o => o.version + 1 | none => 0
  { s with
    objects := aerase s.objects id
    parents := ainsert s.parents ⟨id, ver, OBJECT_DIGEST_DELETED⟩ d }

/-- Modelled from the spec: `update_state(temporary_store, certificate,
signed_effects)` — the atomic commit point: persist all buffered writes and
deletes, the certificate and the signed effects as one unit, and return the
response now recorded for the transaction digest. -/
def update_state (s : AuthorityStore) (ts : AuthorityTemporaryStore)
    (certificate : CertifiedOrder) (signed_effects : SignedOrderEffects) :
    OrderInfoResponse × AuthorityStore :=
  let d := certificate.order.txDigest
  let s₁ := ts.written.foldl (fun acc p => commit_written acc d p.2) s
  let s₂ := ts.deleted.foldl (fun acc id => commit_deleted acc d id) s₁
  let s₃ := { s₂ with
    certificates := ainsert s₂.certificates d certificate
    signedEffects := ainsert s₂.signedEffects d signed_effects }
  (get_order_info s₃ d, s₃)

end AuthorityStore

/-- The authority's static identity: name, signing capability, committee. -/
structure AuthorityState where
  name : Nat
  secret : Nat
  committee : Committee

namespace AuthorityState

/-- The logic to check one object against a reference
(`authority.rs:check_one_lock`): package inputs must be packages; object
inputs must match the declared version and digest; read-only objects skip
the ownership check but must not be the gas object; mutable objects must be
owned by the sender or by a mutable input object; the gas object must meet
the gas requirement. -/
def check_one_lock (order : Order) (object_kind : InputObjectKind)
    (object : Object) (mutable_object_addresses : List SuiAddress) :
    Except SuiError Unit :=
  match object_kind with
  | .MovePackage package_id =>
      if object.isPackage then .ok ()
      else .error (.MoveObjectAsPackage package_id)
  | .MoveObject r =>
      if ¬ (r.seq ≤ SEQUENCE_NUMBER_MAX) then .error .InvalidSequenceNumber
      else if ¬ (object.version = r.seq) then
        .error (.UnexpectedSequenceNumber r.id object.version)
      else if ¬ (object.digest = r.digest) then
        .error (.InvalidObjectDigest r.id r.digest)
      else if object.readOnly then
        if r.id = order.gas_payment_object_ref.id then
          .error (.InsufficientGas "Gas object should not be immutable")
        else .ok ()
      else if ¬ (order.sender_address = object.owner ∨
          object.owner ∈ mutable_object_addresses) then
        .error .IncorrectSigner
      else if r.id = order.gas_payment_object_ref.id then
        gas.check_gas_requirement order object
      else .ok ()

/-- The addresses of the resolved non-read-only input objects
(`mutable_object_addresses` in `authority.rs:check_locks`). -/
def mutableObjectAddresses (objects : List (Option Object)) : List SuiAddress :=
  objects.filterMap (fun opt =>
    match opt with
    | some obj => if !obj.readOnly then some (idToAddress obj.id) else none
    | none => none)

/-- The resolved objects of all declared inputs, in declaration order
(`self.get_objects(&ids[..])` in `check_locks`). -/
def resolvedInputs (s : AuthorityStore) (order : Order) : List (Option Object) :=
  (order.input_objects.map InputObjectKind.objectId).map s.get_object

/-- The mutable-object address set computed by `check_locks` for an order. -/
def inputAddrs (s : AuthorityStore) (order : Order) : List SuiAddress :=
  mutableObjectAddresses (resolvedInputs s order)

/-- One step of the `check_locks` accumulation loop: push an error for a
missing or failing input, collect a successfully checked (kind, object)
pair. -/
def checkLocksStep (order : Order)
    (mutable_object_addresses : List SuiAddress)
    (acc : List (InputObjectKind × Object) × List SuiError)
    (p : InputObjectKind × Option Object) :
    List (InputObjectKind × Object) × List SuiError :=
  match p with
  | (object_kind, none) =>
      (acc.1, acc.2 ++ [SuiError.ObjectNotFound object_kind.objectId])
  | (object_kind, some object) =>
      match check_one_lock order object_kind object mutable_object_addresses with
      | .ok _ => (acc.1 ++ [(object_kind, object)], acc.2)
      | .error e => (acc.1, acc.2 ++ [e])

/-- The per-input accumulation loop of `check_locks`: pairs each declared
input with its resolved object, pushing an error per missing or failing
input and collecting the successfully checked (kind, object) pairs. -/
def checkLocksLoop (order : Order)
    (mutable_object_addresses : List SuiAddress)
    (pairs : List (InputObjectKind × Option Object)) :
    List (InputObjectKind × Object) × List SuiError :=
  pairs.foldl (checkLocksStep order mutable_object_addresses) ([], [])

/-- The errors the loop collects, as a filterMap: one entry per missing or
failing input, in input order. -/
def loopErrors (order : Order) (mutable_object_addresses : List SuiAddress)
    (pairs : List (InputObjectKind × Option Object)) : List SuiError :=
  pairs.filterMap (fun p =>
    match p with
    | (object_kind, none) => some (SuiError.ObjectNotFound object_kind.objectId)
    | (object_kind, some object) =>
        match check_one_lock order object_kind object mutable_object_addresses with
        | .ok _ => none
        | .error e => some e)

/-- The successfully checked pairs the loop collects, as a filterMap. -/
def loopOks (order : Order) (mutable_object_addresses : List SuiAddress)
    (pairs : List (InputObjectKind × Option Object)) :
    List (InputObjectKind × Object) :=
  pairs.filterMap (fun p =>
    match p with
    | (_, none) => none
    | (object_kind, some object) =>
        match check_one_lock order object_kind object mutable_object_addresses with
        | .ok _ => some (object_kind, object)
        | .error _ => none)

/-- Check all the objects used in the order against the database
(`authority.rs:check_locks`): at least one input, no duplicate input ids,
then the per-input checks, collecting all errors before failing with the
aggregate `LockErrors`. -/
def check_locks (s : AuthorityStore) (order : Order) :
    Except SuiError (List (InputObjectKind × Object)) :=
  if order.input_objects.isEmpty then .error .ObjectInputArityViolation
  else if ¬ (order.input_objects.map InputObjectKind.objectId).Nodup then
    .error .DuplicateObjectRefInput
  else if ¬ (checkLocksLoop order (inputAddrs s order)
      (order.input_objects.zip (resolvedInputs s order))).2.isEmpty then
    .error (.LockErrors (checkLocksLoop order (inputAddrs s order)
      (order.input_objects.zip (resolvedInputs s order))).2)
  else if (checkLocksLoop order (inputAddrs s order)
      (order.input_objects.zip (resolvedInputs s order))).1.isEmpty then
    .error .ObjectInputArityViolation
  else .ok (checkLocksLoop order (inputAddrs s order)
    (order.input_objects.zip (resolvedInputs s order))).1

/-- The resolved inputs that get locked by `handle_order`: Move-object
inputs whose resolved object is not read-only (packages and read-only
objects are filtered out). -/
def mutableInputRefs (objs : List (InputObjectKind × Object)) : List ObjectRef :=
  objs.filterMap (fun p =>
    match p.1 with
    | .MovePackage _ => none
    | .MoveObject object_ref =>
        if p.2.readOnly then none else some object_ref)

/-- Initiate a new order (`authority.rs:handle_order`): check the sender's
signature, check the input locks, sign the order, write the locks for the
mutable inputs, and return the response recorded for the transaction
digest.  The store is threaded explicitly; on error it is unchanged. -/
def handle_order (st : AuthorityState) (s : AuthorityStore) (order : Order) :
    Except SuiError OrderInfoResponse × AuthorityStore :=
  match order.check_signature with
  | .error e => (.error e, s)
  | .ok _ =>
    match check_locks s order with
    | .error e => (.error e, s)
    | .ok all_objects =>
      match s.set_order_lock (mutableInputRefs all_objects)
          (SignedOrder.new order st.name st.secret) with
      | .error e => (.error e, s)
      | .ok s' => (.ok (s'.get_order_info order.digest), s')

/-- The body of the transfer handler once the output object has been
popped: deduct gas (fail leaves the transferred object untouched), reject
read-only objects, then write gas object and re-owned object. -/
def transferInner (temporary_store : AuthorityTemporaryStore)
    (recipient : SuiAddress) (gas_object : Object) (output_object : Object) :
    AuthorityTemporaryStore × ExecutionStatus :=
  match gas.try_deduct_gas gas_object
      (gas.calculate_object_transfer_cost output_object) with
  | .error err =>
      (temporary_store, .Failure gas.MIN_OBJ_TRANSFER_GAS err)
  | .ok gas_object' =>
    if output_object.readOnly then
      (temporary_store.write_object gas_object',
        .Failure gas.MIN_OBJ_TRANSFER_GAS .CannotTransferReadOnlyObject)
    else
      ((temporary_store.write_object gas_object').write_object
          (output_object.transfer recipient),
        .Success (gas.calculate_object_transfer_cost output_object))

/-- The transfer execution handler (`authority.rs:transfer`), embedded
faithfully: the arity guard applies Rust bitwise NOT to the input length
(`!inputs.len() == 1`), and `pop().unwrap()` on an empty input list is a
panic (`none`); otherwise `transferInner` deducts gas before the read-only
check and on success writes both the charged gas object and the re-owned
object. -/
def transfer (temporary_store : AuthorityTemporaryStore) (inputs : List Object)
    (recipient : SuiAddress) (gas_object : Object) :
    Option (AuthorityTemporaryStore × ExecutionStatus) :=
  if rustNotUsize inputs.length = 1 then
    some (temporary_store,
      .Failure gas.MIN_OBJ_TRANSFER_GAS .ObjectInputArityViolation)
  else
    (inputs.getLast?).map (transferInner temporary_store recipient gas_object)

/-- The dispatch-by-kind body of `execute_order`: `Transfer` runs the
transfer handler on the non-gas inputs, `Call` pops the package
(second-to-last input) and delegates to the adapter, `Publish` delegates to
the adapter. -/
def executeBody (ad : Adapter) (sender : SuiAddress)
    (temporary_store : AuthorityTemporaryStore) (rest : List Object)
    (gas_object : Object) :
    OrderKind → RunResult (AuthorityTemporaryStore × ExecutionStatus)
  | .Transfer recipient _ =>
      match transfer temporary_store rest recipient gas_object with
      | none => .panicked
      | some (ts, status) => .ok (ts, status)
  | .Call _ _ _ _ _ _ _ =>
      match rest.getLast? with
      | none => .panicked
      | some package =>
        match ad.execFn package rest.dropLast gas_object with
        | .error e => .err e
        | .ok (ws, ds, status) =>
            .ok (applyAdapterWrites temporary_store ws ds, status)
  | .Publish modules gas_budget =>
      match ad.publishFn sender modules gas_budget gas_object with
      | .error e => .err e
      | .ok (ws, ds, status) =>
          .ok (applyAdapterWrites temporary_store ws ds, status)

/-- The failure-path epilogue of `execute_order`: on `Failure` reset the
temporary store and re-write the gas object carrying the deducted
`gas_used`; in all cases finish with `ensure_active_inputs_mutated`. -/
def finishExecution (gas_object : Object)
    (body : RunResult (AuthorityTemporaryStore × ExecutionStatus)) :
    RunResult (AuthorityTemporaryStore × ExecutionStatus) :=
  match body with
  | .panicked => .panicked
  | .err e => .err e
  | .ok (ts₁, status) =>
    match status with
    | .Failure gas_used e =>
        .ok ((((ts₁.reset).write_object
            (gas.deduct_gas gas_object gas_used)).ensure_active_inputs_mutated),
          .Failure gas_used e)
    | .Success g => .ok (ts₁.ensure_active_inputs_mutated, .Success g)

/-- Dispatch execution (`authority.rs:execute_order`): seed a fresh
temporary store with the resolved inputs, pop the gas object (last input),
route by order kind (`executeBody`), then run the failure-path epilogue
(`finishExecution`). -/
def execute_order (ad : Adapter) (order : Order) (inputs : List Object)
    (digest : TransactionDigest) :
    RunResult (AuthorityTemporaryStore × ExecutionStatus) :=
  match inputs.getLast? with
  | none => .panicked
  | some gas_object =>
    finishExecution gas_object
      (executeBody ad order.sender_address
        (AuthorityTemporaryStore.new inputs digest)
        inputs.dropLast gas_object order.kind)

/-- Given all mutated objects, return those that were unwrapped, i.e. whose
(id, version) has a tombstone parent entry at the reserved deleted digest
(`authority.rs:get_unwrapped_object_ids`). -/
def get_unwrapped_object_ids (s : AuthorityStore)
    (written : List (ObjectID × Object)) : List ObjectID :=
  written.filterMap (fun p =>
    (alookup s.parents ⟨p.1, p.2.version, OBJECT_DIGEST_DELETED⟩).map
      (fun _ => p.1))

/-- The commit path of `handle_confirmation_order`: record the dependency
set (prior transactions of the inputs, genesis excluded), detect and patch
unwrapped objects, sign the effects and commit everything atomically
through `update_state`, returning the response now recorded. -/
def confirmFinish (st : AuthorityState) (s : AuthorityStore)
    (certificate : CertifiedOrder)
    (all_objects : List (InputObjectKind × Object))
    (temporary_store : AuthorityTemporaryStore) (status : ExecutionStatus) :
    RunResult (OrderInfoResponse × AuthorityStore × Nat) :=
  let transaction_dependencies :=
    (((all_objects.map (fun p => p.2)).map Object.previous_transaction).eraseDups).filter
      (fun d => d ≠ TransactionDigest.genesis)
  let ts₂ := temporary_store.patch_unwrapped_object_version
    (get_unwrapped_object_ids s temporary_store.written)
  let to_signed_effects := ts₂.to_signed_effects st.name st.secret
    certificate.order.digest transaction_dependencies status
    certificate.order.gas_payment_object_ref.id
  let rs := s.update_state ts₂ certificate to_signed_effects
  .ok (rs.1, rs.2, 1)

/-- Confirm an order (`authority.rs:handle_confirmation_order`): check the
certificate, return the recorded response unchanged if one already records
a certificate, otherwise re-check locks, execute, and commit through
`confirmFinish`.  The third component counts the `update_state`
invocations performed by the call. -/
def handle_confirmation_order (st : AuthorityState) (ad : Adapter)
    (s : AuthorityStore) (confirmation_order : ConfirmationOrder) :
    RunResult (OrderInfoResponse × AuthorityStore × Nat) :=
  match confirmation_order.certificate.check st.committee with
  | .error e => .err e
  | .ok _ =>
    if (s.get_order_info confirmation_order.certificate.order.digest
        ).certified_order.isSome then
      .ok (s.get_order_info confirmation_order.certificate.order.digest, s, 0)
    else
      match check_locks s confirmation_order.certificate.order with
      | .error e => .err e
      | .ok all_objects =>
        match execute_order ad confirmation_order.certificate.order
            (all_objects.map (fun p => p.2))
            confirmation_order.certificate.order.digest with
        | .panicked => .panicked
        | .err e => .err e
        | .ok (temporary_store, status) =>
          confirmFinish st s confirmation_order.certificate all_objects
            temporary_store status

end AuthorityState

/-- The errors collected by `check_locks`, one per failing input in input
order: a missing input contributes its `ObjectNotFound`, a resolved input
failing `check_one_lock` contributes that error, a passing input
contributes nothing. -/
def perInputErrors (s : AuthorityStore) (o : Order) : List SuiError :=
  AuthorityState.loopErrors o (AuthorityState.inputAddrs s o)
    (o.input_objects.zip (AuthorityState.resolvedInputs s o))

/-- The successfully checked inputs collected by `check_locks`. -/
def okInputs (s : AuthorityStore) (o : Order) :
    List (InputObjectKind × Object) :=
  AuthorityState.loopOks o (AuthorityState.inputAddrs s o)
    (o.input_objects.zip (AuthorityState.resolvedInputs s o))

/-- The hypothesis on the external execution adapter guaranteed by the data
model ("a new version is written, never edited in place"): any write it
buffers for an object that is among the inputs carries a strictly higher
version than that input. -/
def AdapterBumpsInputs (ad : Adapter) (inputs : List Object) : Prop :=
  (∀ pkg args gasObj ws ds stt, ad.execFn pkg args gasObj = .ok (ws, ds, stt) →
    ∀ w ∈ ws, ∀ i ∈ inputs, w.id = i.id → i.version < w.version) ∧
  (∀ sender mods gb gasObj ws ds stt,
    ad.publishFn sender mods gb gasObj = .ok (ws, ds, stt) →
    ∀ w ∈ ws, ∀ i ∈ inputs, w.id = i.id → i.version < w.version)

/-- Every buffered write for an input object carries a strictly higher
version than that input (holds for the write set produced by the execution
body on the success path). -/
def WrittenBumps (ts : AuthorityTemporaryStore) (inputs : List Object) : Prop :=
  ∀ id v, alookup ts.written id = some v →
    ∀ i ∈ inputs, i.id = id → i.version < v.version

/-- The surviving write set of an execution run (empty on panic or error). -/
def rrWritten (r : RunResult (AuthorityTemporaryStore × ExecutionStatus)) :
    List (ObjectID × Object) :=
  match r with
  | .ok (ts, _) => ts.written
  | _ => []

/-- Whether an execution run ended in `ExecutionStatus::Failure`. -/
def runIsFailure (r : RunResult (AuthorityTemporaryStore × ExecutionStatus)) :
    Bool :=
  match r with
  | .ok (_, .Failure _ _) => true
  | _ => false

/-- Whether a transfer-handler outcome is `ExecutionStatus::Success`. -/
def optStatusSuccess
    (r : Option (AuthorityTemporaryStore × ExecutionStatus)) : Bool :=
  match r with
  | some (_, .Success _) => true
  | _ => false

/-- An empty temporary store (fallback for extraction helpers). -/
def tsEmpty : AuthorityTemporaryStore := ⟨[], [], [], [], 0⟩

/-- An empty authority store (fallback for extraction helpers). -/
def storeEmpty : AuthorityStore := ⟨[], [], [], [], [], []⟩

/-- An empty order-info response (fallback for extraction helpers). -/
def respEmpty : OrderInfoResponse := ⟨none, none, none⟩

/-! ### Concrete fixtures used by the witnesses and counterexamples -/

/-- A concrete authority: name 1, secret 500, quorum threshold 3. -/
def stW : AuthorityState := ⟨1, 500, ⟨3⟩⟩

/-- Reference to the transferred object `A` at version 0. -/
def refA : ObjectRef := ⟨1, 0, 11⟩

/-- Object `A`: mutable, owned by address 100, 4 bytes. -/
def objA : Object := ⟨1, 0, 100, false, false, 11, 0, 4, 0⟩

/-- Reference to the gas object `G` at version 0. -/
def refG : ObjectRef := ⟨2, 0, 12⟩

/-- Gas object `G`: mutable, owned by address 100, balance 50. -/
def objG : Object := ⟨2, 0, 100, false, false, 12, 50, 3, 0⟩

/-- A third mutable object used for the two-input transfer run. -/
def objB : Object := ⟨3, 0, 100, false, false, 13, 0, 6, 0⟩

/-- A transfer order: sender 100 sends `A@0` to 101, paying with `G@0`. -/
def orderW : Order := ⟨100, .Transfer 101 refA, refG, true, 1000⟩

/-- A store holding `A@0` and `G@0` with initialized (empty) lock slots. -/
def storeW : AuthorityStore :=
  ⟨[(1, objA), (2, objG)], [(refA, none), (refG, none)], [], [], [], []⟩

/-- A trivial adapter that writes and deletes nothing. -/
def adapter0 : Adapter :=
  ⟨fun _ _ _ => .ok ([], [], .Success 0), fun _ _ _ _ => .ok ([], [], .Success 0)⟩

/-- A certificate over `orderW` carrying a quorum of 3 signatures. -/
def certW : CertifiedOrder := ⟨orderW, 3⟩

/-- The confirmation order wrapping `certW`. -/
def confW : ConfirmationOrder := ⟨certW⟩

/-- A fresh temporary store seeded with `A@0` and `G@0`. -/
def ts0 : AuthorityTemporaryStore := AuthorityTemporaryStore.new [objA, objG] 1000

/-- A gas object too poor (balance 2) to pay the transfer cost of `A`. -/
def objGpoor : Object := ⟨2, 0, 100, false, false, 12, 2, 3, 0⟩

/-- The transfer order used for the failed-execution run. -/
def orderPoor : Order := ⟨100, .Transfer 101 refA, refG, true, 1001⟩

/-- The failed execution run: transferring `A` with insufficient gas. -/
def c3Run : RunResult (AuthorityTemporaryStore × ExecutionStatus) :=
  AuthorityState.execute_order adapter0 orderPoor [objA, objGpoor] 1001

/-- The temporary store surviving the failed run `c3Run`. -/
def c3Ts : AuthorityTemporaryStore :=
  match c3Run with
  | .ok (ts, _) => ts
  | _ => tsEmpty

/-- The result triple of the first confirmation of `confW` against `storeW`. -/
def c2Triple : OrderInfoResponse × AuthorityStore × Nat :=
  match AuthorityState.handle_confirmation_order stW adapter0 storeW confW with
  | .ok t => t
  | _ => (respEmpty, storeEmpty, 0)

/-- The result pair of submitting `orderW` to `storeW`. -/
def hoPair : Except SuiError OrderInfoResponse × AuthorityStore :=
  AuthorityState.handle_order stW storeW orderW

/-- The response of submitting `orderW` to `storeW`. -/
def hoResp : OrderInfoResponse :=
  match hoPair.1 with
  | .ok r => r
  | .error _ => respEmpty

/-- The store after submitting `orderW` to `storeW`. -/
def hoStore : AuthorityStore := hoPair.2

/-- The successful execution run of `orderW` over `A@0`, `G@0`. -/
def c6Run : RunResult (AuthorityTemporaryStore × ExecutionStatus) :=
  AuthorityState.execute_order adapter0 orderW [objA, objG] 1000

/-- The temporary store produced by the successful run `c6Run`. -/
def c6Ts : AuthorityTemporaryStore :=
  match c6Run with
  | .ok (ts, _) => ts
  | _ => tsEmpty

/-- A declared reference whose version and digest both mismatch the store. -/
def refBoth : ObjectRef := ⟨5, 3, 77⟩

/-- The stored object behind `refBoth`: version 4, digest 88. -/
def objBoth : Object := ⟨5, 4, 100, false, false, 88, 0, 2, 0⟩

/-- Gas object for the mismatch fixtures: id 9, owned by the sender 100. -/
def gas9 : Object := ⟨9, 0, 100, false, false, 90, 50, 1, 0⟩

/-- Reference to `gas9` at version 0. -/
def ref9 : ObjectRef := ⟨9, 0, 90⟩

/-- Order whose single non-gas input is the mismatching `refBoth`. -/
def ord7 : Order := ⟨100, .Transfer 101 refBoth, ref9, true, 1007⟩

/-- Store for the mismatch fixture: holds `objBoth` (version 4) and `gas9`. -/
def store7 : AuthorityStore :=
  ⟨[(5, objBoth), (9, gas9)], [(objBoth.ref, none), (ref9, none)], [], [], [], []⟩

/-- A mutable object that is its own owner (owner = its id as an address). -/
def objSelf : Object := ⟨7, 0, 7, false, false, 70, 0, 2, 0⟩

/-- Reference to `objSelf` at version 0. -/
def refSelf : ObjectRef := ⟨7, 0, 70⟩

/-- Order transferring the self-owned object, gas paid by `gas9`. -/
def ord8 : Order := ⟨100, .Transfer 101 refSelf, ref9, true, 1008⟩

/-- Store holding the self-owned object and its gas object. -/
def store8 : AuthorityStore :=
  ⟨[(7, objSelf), (9, gas9)], [(refSelf, none), (ref9, none)], [], [], [], []⟩

/-- A mutable object owned by a stranger (address 55). -/
def objStranger : Object := ⟨6, 0, 55, false, false, 60, 0, 2, 0⟩

/-- Reference to `objStranger` at version 0. -/
def refStranger : ObjectRef := ⟨6, 0, 60⟩

/-- A read-only object at id 4. -/
def objRO : Object := ⟨4, 0, 100, true, false, 40, 30, 2, 0⟩

/-- Reference to `objRO` at version 0. -/
def refRO : ObjectRef := ⟨4, 0, 40⟩

/-- Order using the read-only object as its gas-payment object. -/
def ordROgas : Order := ⟨100, .Transfer 101 refA, refRO, true, 1009⟩

/-- Order with the read-only object as a plain input and `gas9` as gas. -/
def ordROin : Order := ⟨100, .Transfer 101 refRO, ref9, true, 1010⟩

/-- A store missing object `A` (only the gas object is present). -/
def storeMiss : AuthorityStore :=
  ⟨[(2, objG)], [(refG, none)], [], [], [], []⟩

/-- An object reference never mentioned by the fixtures. -/
def refOther : ObjectRef := ⟨50, 0, 0⟩

/-! ## Association-list lemmas -/

theorem alookup_aerase_ne {κ α : Type} [DecidableEq κ] {l : List (κ × α)} {k k' : κ}
    (h : k ≠ k') : alookup (aerase l k) k' = alookup l k' := by
  induction l with
  | nil => rfl
  | cons p rest ih =>
    by_cases hp : p.1 = k
    · have : alookup (p :: rest) k' = alookup rest k' := by
        simp only [alookup]
        rw [if_neg]
        intro he
        exact h (hp ▸ he)
      rw [this, ← ih]
      simp [aerase, hp]
    · simp only [aerase, List.filter]
      rw [decide_eq_true (by exact hp : p.1 ≠ k)]
      show alookup (p :: aerase rest k) k' = alookup (p :: rest) k'
      simp only [alookup]
      split
      · rfl
      · exact ih

theorem alookup_ainsert_self {κ α : Type} [DecidableEq κ] {l : List (κ × α)}
    {k : κ} {v : α} : alookup (ainsert l k v) k = some v := by
  simp [ainsert, alookup]

theorem alookup_ainsert_ne {κ α : Type} [DecidableEq κ] {l : List (κ × α)}
    {k k' : κ} {v : α} (h : k ≠ k') :
    alookup (ainsert l k v) k' = alookup l k' := by
  simp only [ainsert, alookup]
  rw [if_neg h]
  exact alookup_aerase_ne h

theorem alookup_ainsert {κ α : Type} [DecidableEq κ] {l : List (κ × α)}
    {k k' : κ} {v : α} :
    alookup (ainsert l k v) k' = if k = k' then some v else alookup l k' := by
  by_cases h : k = k'
  · subst h; simp [alookup_ainsert_self]
  · rw [if_neg h]; exact alookup_ainsert_ne h

theorem alookup_ainsertMany_const {κ α : Type} [DecidableEq κ]
    {refs : List κ} {v : α} :
    ∀ (l : List (κ × α)) (k : κ),
    alookup (ainsertMany l (refs.map (fun r => (r, v)))) k =
      if k ∈ refs then some v else alookup l k := by
  induction refs with
  | nil => intro l k; simp [ainsertMany]
  | cons r rs ih =>
    intro l k
    have hstep :
        ainsertMany l (((r :: rs).map (fun r => (r, v)))) =
          ainsertMany (ainsert l r v) (rs.map (fun r => (r, v))) := by
      simp [ainsertMany]
    rw [hstep, ih]
    by_cases hk : k ∈ rs
    · simp [hk, List.mem_cons]
    · rw [if_neg hk, alookup_ainsert]
      by_cases hr : r = k
      · subst hr; simp
      · rw [if_neg hr, if_neg]
        simp only [List.mem_cons]
        rintro (h | h)
        · exact hr h.symm
        · exact hk h

/-! ## Temporary-store lemmas -/

@[simp]
theorem write_object_objects {ts : AuthorityTemporaryStore} {o : Object} :
    (ts.write_object o).objects = ts.objects := rfl

@[simp]
theorem write_object_active {ts : AuthorityTemporaryStore} {o : Object} :
    (ts.write_object o).active_inputs = ts.active_inputs := rfl

@[simp]
theorem write_object_deleted {ts : AuthorityTemporaryStore} {o : Object} :
    (ts.write_object o).deleted = ts.deleted := rfl

@[simp]
theorem write_object_written {ts : AuthorityTemporaryStore} {o : Object} :
    (ts.write_object o).written = ainsert ts.written o.id o := rfl

@[simp]
theorem delete_object_objects {ts : AuthorityTemporaryStore} {id : ObjectID} :
    (ts.delete_object id).objects = ts.objects := rfl

@[simp]
theorem delete_object_active {ts : AuthorityTemporaryStore} {id : ObjectID} :
    (ts.delete_object id).active_inputs = ts.active_inputs := rfl

@[simp]
theorem delete_object_written {ts : AuthorityTemporaryStore} {id : ObjectID} :
    (ts.delete_object id).written = ts.written := rfl

theorem foldl_write_objects {ws : List Object} :
    ∀ {ts : AuthorityTemporaryStore},
    (ws.foldl AuthorityTemporaryStore.write_object ts).objects = ts.objects := by
  induction ws with
  | nil => intro ts; rfl
  | cons w ws ih => intro ts; rw [List.foldl_cons, ih]; rfl

theorem foldl_write_active {ws : List Object} :
    ∀ {ts : AuthorityTemporaryStore},
    (ws.foldl AuthorityTemporaryStore.write_object ts).active_inputs =
      ts.active_inputs := by
  induction ws with
  | nil => intro ts; rfl
  | cons w ws ih => intro ts; rw [List.foldl_cons, ih]; rfl

theorem foldl_delete_objects {ds : List ObjectID} :
    ∀ {ts : AuthorityTemporaryStore},
    (ds.foldl AuthorityTemporaryStore.delete_object ts).objects = ts.objects := by
  induction ds with
  | nil => intro ts; rfl
  | cons d ds ih => intro ts; rw [List.foldl_cons, ih]; rfl

theorem foldl_delete_active {ds : List ObjectID} :
    ∀ {ts : AuthorityTemporaryStore},
    (ds.foldl AuthorityTemporaryStore.delete_object ts).active_inputs =
      ts.active_inputs := by
  induction ds with
  | nil => intro ts; rfl
  | cons d ds ih => intro ts; rw [List.foldl_cons, ih]; rfl

theorem foldl_delete_written {ds : List ObjectID} :
    ∀ {ts : AuthorityTemporaryStore},
    (ds.foldl AuthorityTemporaryStore.delete_object ts).written = ts.written := by
  induction ds with
  | nil => intro ts; rfl
  | cons d ds ih => intro ts; rw [List.foldl_cons, ih]; rfl

theorem applyAdapterWrites_objects {ts : AuthorityTemporaryStore}
    {ws : List Object} {ds : List ObjectID} :
    (applyAdapterWrites ts ws ds).objects = ts.objects := by
  rw [applyAdapterWrites, foldl_delete_objects, foldl_write_objects]

theorem applyAdapterWrites_active {ts : AuthorityTemporaryStore}
    {ws : List Object} {ds : List ObjectID} :
    (applyAdapterWrites ts ws ds).active_inputs = ts.active_inputs := by
  rw [applyAdapterWrites, foldl_delete_active, foldl_write_active]

theorem foldl_write_lookup_elim {ws : List Object} :
    ∀ {ts : AuthorityTemporaryStore} {id : ObjectID} {v : Object},
    alookup (ws.foldl AuthorityTemporaryStore.write_object ts).written id = some v →
    (v ∈ ws ∧ v.id = id) ∨ alookup ts.written id = some v := by
  induction ws with
  | nil => intro ts id v h; exact Or.inr h
  | cons w ws ih =>
    intro ts id v h
    rw [List.foldl_cons] at h
    rcases ih h with ⟨hmem, hid⟩ | hlook
    · exact Or.inl ⟨List.mem_cons_of_mem _ hmem, hid⟩
    · rw [write_object_written, alookup_ainsert] at hlook
      by_cases hw : w.id = id
      · rw [if_pos hw] at hlook
        have hv : w = v := Option.some_inj.mp hlook
        exact Or.inl ⟨by simp [← hv], by rw [← hv]; exact hw⟩
      · rw [if_neg hw] at hlook
        exact Or.inr hlook

theorem applyAdapterWrites_lookup_elim {ts : AuthorityTemporaryStore}
    {ws : List Object} {ds : List ObjectID} {id : ObjectID} {v : Object}
    (h : alookup (applyAdapterWrites ts ws ds).written id = some v) :
    (v ∈ ws ∧ v.id = id) ∨ alookup ts.written id = some v := by
  rw [applyAdapterWrites, foldl_delete_written] at h
  exact foldl_write_lookup_elim h

/-! ## Lemmas about the "ensure active inputs mutated" fold -/

theorem ensureStep_lookup_of_isSome {objs : List (ObjectID × Object)}
    {del : List ObjectID} {w : List (ObjectID × Object)} {r : ObjectRef}
    {id : ObjectID} (h : (alookup w id).isSome) :
    alookup (ensureStep objs del w r) id = alookup w id := by
  rw [ensureStep]
  split
  · rfl
  · next hguard =>
    simp only [Bool.or_eq_true, decide_eq_true_eq, not_or] at hguard
    have hrid : alookup w r.id = none := by
      rcases hl : alookup w r.id with _ | v
      · rfl
      · rw [hl] at hguard
        exact absurd rfl hguard.1
    split
    · next o _ =>
      have hne : r.id ≠ id := by
        intro he
        rw [he] at hrid
        rw [hrid] at h
        exact absurd h (by simp)
      exact alookup_ainsert_ne hne
    · rfl

theorem ensureFold_preserve {objs : List (ObjectID × Object)}
    {del : List ObjectID} {refs : List ObjectRef} :
    ∀ {w : List (ObjectID × Object)} {id : ObjectID},
    (alookup w id).isSome →
    alookup (refs.foldl (ensureStep objs del) w) id = alookup w id := by
  induction refs with
  | nil => intro w id _; rfl
  | cons r rs ih =>
    intro w id h
    rw [List.foldl_cons,
      ih (by rw [ensureStep_lookup_of_isSome h]; exact h),
      ensureStep_lookup_of_isSome h]

theorem ensureFold_isSome_of_mem {objs : List (ObjectID × Object)}
    {del : List ObjectID} {refs : List ObjectRef} :
    ∀ {w : List (ObjectID × Object)} {r : ObjectRef},
    r ∈ refs → (alookup objs r.id).isSome → r.id ∉ del →
    (alookup (refs.foldl (ensureStep objs del) w) r.id).isSome := by
  induction refs with
  | nil => intro w r h; exact absurd h (List.not_mem_nil r)
  | cons r' rs ih =>
    intro w r hmem hobj hdel
    rw [List.foldl_cons]
    rcases List.mem_cons.mp hmem with heq | htail
    · subst heq
      have hsome : (alookup (ensureStep objs del w r) r.id).isSome := by
        rw [ensureStep]
        split
        · next hguard =>
          rcases (by simpa using hguard : (alookup w r.id).isSome = true ∨ r.id ∈ del)
            with hs | hd
          · exact hs
          · exact absurd hd hdel
        · rcases ho : alookup objs r.id with _ | o
          · rw [ho] at hobj; exact absurd hobj (by simp)
          · simp [alookup_ainsert_self]
      rcases hval : alookup (ensureStep objs del w r) r.id with _ | v
      · rw [hval] at hsome; exact absurd hsome (by simp)
      · rw [ensureFold_preserve (by rw [hval]; rfl), hval]
        rfl
    · exact ih htail hobj hdel

theorem ensureFold_lookup_elim {objs : List (ObjectID × Object)}
    {del : List ObjectID} {refs : List ObjectRef} :
    ∀ {w : List (ObjectID × Object)} {id : ObjectID} {v : Object},
    alookup (refs.foldl (ensureStep objs del) w) id = some v →
    alookup w id = some v ∨
      ((∃ r ∈ refs, r.id = id) ∧ id ∉ del ∧
        ∃ o, alookup objs id = some o ∧ v = o.bump) := by
  induction refs with
  | nil => intro w id v h; exact Or.inl h
  | cons r rs ih =>
    intro w id v h
    rw [List.foldl_cons] at h
    rcases ih h with hstep | htail
    · rw [ensureStep] at hstep
      split at hstep
      · exact Or.inl hstep
      · next hguard =>
        split at hstep
        · next o ho =>
          rw [alookup_ainsert] at hstep
          by_cases hrid : r.id = id
          · rw [if_pos hrid] at hstep
            refine Or.inr ⟨⟨r, List.mem_cons_self r rs, hrid⟩, ?_, o, ?_, ?_⟩
            · intro hd
              rw [← hrid] at hd
              exact hguard (by simp [hd])
            · rw [← hrid]; exact ho
            · exact (Option.some_inj.mp hstep).symm
          · rw [if_neg hrid] at hstep
            exact Or.inl hstep
        · exact Or.inl hstep
    · rcases htail with ⟨⟨r', hr', hid⟩, hdel, o, ho, hv⟩
      exact Or.inr ⟨⟨r', List.mem_cons_of_mem r hr', hid⟩, hdel, o, ho, hv⟩

/-! ## Lemmas about the fresh temporary store -/

theorem alookup_pairs_of_mem {inputs : List Object}
    (hnd : (inputs.map Object.id).Nodup) {i : Object} (hi : i ∈ inputs) :
    alookup (inputs.map (fun o => (o.id, o))) i.id = some i := by
  induction inputs with
  | nil => exact absurd hi (List.not_mem_nil i)
  | cons j tl ih =>
    rw [List.map_cons, List.nodup_cons] at hnd
    rcases List.mem_cons.mp hi with heq | htail
    · subst heq
      simp [alookup]
    · show alookup ((j.id, j) :: tl.map (fun o => (o.id, o))) i.id = some i
      rw [alookup]
      rw [if_neg, ih hnd.2 htail]
      intro hji
      exact hnd.1 (hji ▸ List.mem_map_of_mem Object.id htail)

theorem eq_of_mem_of_id_eq {inputs : List Object}
    (hnd : (inputs.map Object.id).Nodup) {i j : Object}
    (hi : i ∈ inputs) (hj : j ∈ inputs) (hij : i.id = j.id) : i = j := by
  have h1 := alookup_pairs_of_mem hnd hi
  have h2 := alookup_pairs_of_mem hnd hj
  rw [hij, h2] at h1
  exact (Option.some_inj.mp h1).symm

theorem mem_active_new {inputs : List Object} {d : TransactionDigest}
    {r : ObjectRef} :
    r ∈ (AuthorityTemporaryStore.new inputs d).active_inputs ↔
      ∃ i, i ∈ inputs ∧ i.readOnly = false ∧ r = i.ref := by
  show r ∈ ((inputs.filter (fun o => !o.readOnly)).map Object.ref) ↔ _
  rw [List.mem_map]
  constructor
  · rintro ⟨i, hmem, hr⟩
    rw [List.mem_filter] at hmem
    exact ⟨i, hmem.1, by simpa using hmem.2, hr.symm⟩
  · rintro ⟨i, hmem, hro, hr⟩
    exact ⟨i, List.mem_filter.mpr ⟨hmem, by simp [hro]⟩, hr.symm⟩

theorem new_objects_lookup {inputs : List Object} {d : TransactionDigest}
    (hnd : (inputs.map Object.id).Nodup) {i : Object} (hi : i ∈ inputs) :
    alookup (AuthorityTemporaryStore.new inputs d).objects i.id = some i :=
  alookup_pairs_of_mem hnd hi

@[simp]
theorem ensure_objects {ts : AuthorityTemporaryStore} :
    ts.ensure_active_inputs_mutated.objects = ts.objects := rfl

@[simp]
theorem ensure_active {ts : AuthorityTemporaryStore} :
    ts.ensure_active_inputs_mutated.active_inputs = ts.active_inputs := rfl

@[simp]
theorem ensure_deleted {ts : AuthorityTemporaryStore} :
    ts.ensure_active_inputs_mutated.deleted = ts.deleted := rfl

theorem ensure_written {ts : AuthorityTemporaryStore} :
    ts.ensure_active_inputs_mutated.written =
      ts.active_inputs.foldl (ensureStep ts.objects ts.deleted) ts.written := rfl

@[simp]
theorem reset_objects {ts : AuthorityTemporaryStore} :
    ts.reset.objects = ts.objects := rfl

@[simp]
theorem reset_active {ts : AuthorityTemporaryStore} :
    ts.reset.active_inputs = ts.active_inputs := rfl

@[simp]
theorem reset_written {ts : AuthorityTemporaryStore} :
    ts.reset.written = [] := rfl

@[simp]
theorem reset_deleted {ts : AuthorityTemporaryStore} :
    ts.reset.deleted = [] := rfl

/-! ## Inversion lemmas for gas and transfer -/

theorem try_deduct_gas_ok_elim {o : Object} {amount : Nat} {o' : Object}
    (h : gas.try_deduct_gas o amount = .ok o') :
    o' = { o with gasBalance := o.gasBalance - amount, version := o.version + 1 } := by
  rw [gas.try_deduct_gas] at h
  split at h
  · simp only [Except.ok.injEq] at h
    exact h.symm
  · exact Except.noConfusion h

theorem transferInner_fields {ts : AuthorityTemporaryStore} {rec : SuiAddress}
    {g0 out : Object} {ts' : AuthorityTemporaryStore} {st : ExecutionStatus}
    (h : AuthorityState.transferInner ts rec g0 out = (ts', st)) :
    ts'.objects = ts.objects ∧ ts'.active_inputs = ts.active_inputs ∧
      ts'.deleted = ts.deleted := by
  rw [AuthorityState.transferInner] at h
  split at h
  · simp only [Prod.mk.injEq] at h
    obtain ⟨h1, -⟩ := h
    subst h1
    exact ⟨rfl, rfl, rfl⟩
  · split at h <;>
    · simp only [Prod.mk.injEq] at h
      obtain ⟨h1, -⟩ := h
      subst h1
      exact ⟨rfl, rfl, rfl⟩

theorem transfer_fields {ts : AuthorityTemporaryStore} {inputs : List Object}
    {rec : SuiAddress} {g0 : Object} {ts' : AuthorityTemporaryStore}
    {st : ExecutionStatus}
    (h : AuthorityState.transfer ts inputs rec g0 = some (ts', st)) :
    ts'.objects = ts.objects ∧ ts'.active_inputs = ts.active_inputs ∧
      ts'.deleted = ts.deleted := by
  rw [AuthorityState.transfer] at h
  split at h
  · simp only [Option.some.injEq, Prod.mk.injEq] at h
    obtain ⟨h1, -⟩ := h
    subst h1
    exact ⟨rfl, rfl, rfl⟩
  · rcases hout : inputs.getLast? with _ | out <;> rw [hout] at h
    · exact Option.noConfusion h
    · rw [Option.map_some'] at h
      exact transferInner_fields (Option.some.injEq _ _ ▸ h)

theorem transferInner_success_elim {ts : AuthorityTemporaryStore}
    {rec : SuiAddress} {g0 out : Object} {ts' : AuthorityTemporaryStore} {g : Nat}
    (h : AuthorityState.transferInner ts rec g0 out = (ts', .Success g)) :
    out.readOnly = false ∧ g = gas.calculate_object_transfer_cost out ∧
      ts' = (ts.write_object
          { g0 with gasBalance := g0.gasBalance - g, version := g0.version + 1 }
        ).write_object (out.transfer rec) := by
  rw [AuthorityState.transferInner] at h
  split at h
  · simp only [Prod.mk.injEq] at h
    exact absurd h.2 (by intro hx; exact ExecutionStatus.noConfusion hx)
  · next gas' hded =>
    split at h
    · simp only [Prod.mk.injEq] at h
      exact absurd h.2 (by intro hx; exact ExecutionStatus.noConfusion hx)
    · next hro =>
      simp only [Prod.mk.injEq] at h
      obtain ⟨h1, h2⟩ := h
      have hg : gas.calculate_object_transfer_cost out = g :=
        (ExecutionStatus.Success.injEq _ _).mp h2
      refine ⟨by simpa using hro, hg.symm, ?_⟩
      rw [← h1, try_deduct_gas_ok_elim hded, hg]

/-! ## Elimination lemmas for execute_order -/

theorem finishExecution_ok_elim {g0 : Object}
    {body : RunResult (AuthorityTemporaryStore × ExecutionStatus)}
    {ts : AuthorityTemporaryStore} {st : ExecutionStatus}
    (h : AuthorityState.finishExecution g0 body = .ok (ts, st)) :
    ∃ ts₁, body = .ok (ts₁, st) ∧
      ((∃ gu e, st = .Failure gu e ∧
          ts = (((ts₁.reset).write_object
            (gas.deduct_gas g0 gu)).ensure_active_inputs_mutated)) ∨
        (∃ g, st = .Success g ∧ ts = ts₁.ensure_active_inputs_mutated)) := by
  rcases body with _ | e | ⟨ts₁, status⟩
  · exact RunResult.noConfusion h
  · exact RunResult.noConfusion h
  · rcases status with g | ⟨gu, e⟩
    · rw [AuthorityState.finishExecution] at h
      simp only [RunResult.ok.injEq, Prod.mk.injEq] at h
      obtain ⟨h1, h2⟩ := h
      exact ⟨ts₁, by rw [h2], Or.inr ⟨g, h2.symm, h1.symm⟩⟩
    · rw [AuthorityState.finishExecution] at h
      simp only [RunResult.ok.injEq, Prod.mk.injEq] at h
      obtain ⟨h1, h2⟩ := h
      exact ⟨ts₁, by rw [h2], Or.inl ⟨gu, e, h2.symm, h1.symm⟩⟩

theorem execute_order_ok_elim {ad : Adapter} {o : Order} {inputs : List Object}
    {d : TransactionDigest} {ts : AuthorityTemporaryStore} {st : ExecutionStatus}
    (h : AuthorityState.execute_order ad o inputs d = .ok (ts, st)) :
    ∃ g0, inputs.getLast? = some g0 ∧
      AuthorityState.finishExecution g0
        (AuthorityState.executeBody ad o.sender_address
          (AuthorityTemporaryStore.new inputs d)
          inputs.dropLast g0 o.kind) = .ok (ts, st) := by
  rw [AuthorityState.execute_order] at h
  rcases hg : inputs.getLast? with _ | g0 <;> rw [hg] at h
  · exact RunResult.noConfusion h
  · exact ⟨g0, rfl, h⟩

theorem executeBody_ok_elim {ad : Adapter} {sender : SuiAddress} {k : OrderKind}
    {ts0 : AuthorityTemporaryStore} {rest : List Object} {g0 : Object}
    {ts₁ : AuthorityTemporaryStore} {st : ExecutionStatus}
    (h : AuthorityState.executeBody ad sender ts0 rest g0 k = .ok (ts₁, st)) :
    ts₁.objects = ts0.objects ∧ ts₁.active_inputs = ts0.active_inputs ∧
      ((∃ rec oref, k = .Transfer rec oref ∧
          AuthorityState.transfer ts0 rest rec g0 = some (ts₁, st)) ∨
        (∃ ws ds, ts₁ = applyAdapterWrites ts0 ws ds ∧
          ((∃ pkg, ad.execFn pkg rest.dropLast g0 = .ok (ws, ds, st)) ∨
            (∃ mods gb, ad.publishFn sender mods gb g0 =
              .ok (ws, ds, st))))) := by
  rcases k with ⟨rec, oref⟩ | ⟨pkgref, m, f, tyargs, objargs, pureargs, gb⟩ | ⟨mods, gb⟩
  · rw [AuthorityState.executeBody] at h
    rcases ht : AuthorityState.transfer ts0 rest rec g0 with _ | ⟨ts', st'⟩ <;>
      rw [ht] at h
    · exact RunResult.noConfusion h
    · simp only [RunResult.ok.injEq, Prod.mk.injEq] at h
      obtain ⟨h1, h2⟩ := h
      subst h1; subst h2
      obtain ⟨ho, ha, -⟩ := transfer_fields ht
      exact ⟨ho, ha, Or.inl ⟨rec, oref, rfl, ht⟩⟩
  · rw [AuthorityState.executeBody] at h
    rcases hp : rest.getLast? with _ | package <;> rw [hp] at h
    · exact RunResult.noConfusion h
    · simp only at h
      rcases he : ad.execFn package rest.dropLast g0 with e | ⟨ws, ds, stt⟩ <;>
        rw [he] at h
      · exact RunResult.noConfusion h
      · simp only [RunResult.ok.injEq, Prod.mk.injEq] at h
        obtain ⟨h1, h2⟩ := h
        subst h1; subst h2
        exact ⟨applyAdapterWrites_objects, applyAdapterWrites_active,
          Or.inr ⟨ws, ds, rfl, Or.inl ⟨package, he⟩⟩⟩
  · rw [AuthorityState.executeBody] at h
    rcases he : ad.publishFn sender mods gb g0 with e | ⟨ws, ds, stt⟩ <;>
      rw [he] at h
    · exact RunResult.noConfusion h
    · simp only [RunResult.ok.injEq, Prod.mk.injEq] at h
      obtain ⟨h1, h2⟩ := h
      subst h1; subst h2
      exact ⟨applyAdapterWrites_objects, applyAdapterWrites_active,
        Or.inr ⟨ws, ds, rfl, Or.inr ⟨mods, gb, he⟩⟩⟩

/-! ## Characterization of the surviving write set -/

theorem transfer_success_elim {ts : AuthorityTemporaryStore}
    {inputs : List Object} {rec : SuiAddress} {g0 : Object}
    {ts' : AuthorityTemporaryStore} {g : Nat}
    (h : AuthorityState.transfer ts inputs rec g0 = some (ts', .Success g)) :
    ∃ out, inputs.getLast? = some out ∧ out.readOnly = false ∧
      g = gas.calculate_object_transfer_cost out ∧
      ts' = (ts.write_object
          { g0 with gasBalance := g0.gasBalance - g, version := g0.version + 1 }
        ).write_object (out.transfer rec) := by
  rw [AuthorityState.transfer] at h
  split at h
  · simp only [Option.some.injEq, Prod.mk.injEq] at h
    exact absurd h.2 (by intro hx; exact ExecutionStatus.noConfusion hx)
  · rcases hout : inputs.getLast? with _ | out <;> rw [hout] at h
    · exact Option.noConfusion h
    · rw [Option.map_some'] at h
      obtain ⟨hro, hg, hts⟩ :=
        transferInner_success_elim (Option.some.injEq _ _ ▸ h)
      exact ⟨out, rfl, hro, hg, hts⟩

theorem post_failure_written_char {inputs : List Object} {d : TransactionDigest}
    {g : Nat} {g0 : Object} {ts₁ : AuthorityTemporaryStore}
    (hnd : (inputs.map Object.id).Nodup)
    (hobj : ts₁.objects = (AuthorityTemporaryStore.new inputs d).objects)
    (hact : ts₁.active_inputs =
      (AuthorityTemporaryStore.new inputs d).active_inputs) :
    (alookup (((ts₁.reset).write_object
        (gas.deduct_gas g0 g)).ensure_active_inputs_mutated).written g0.id =
      some (gas.deduct_gas g0 g)) ∧
    (∀ id obj,
      alookup (((ts₁.reset).write_object
        (gas.deduct_gas g0 g)).ensure_active_inputs_mutated).written id =
          some obj →
      id ≠ g0.id →
      ∃ i, i ∈ inputs ∧ i.id = id ∧ i.readOnly = false ∧ obj = i.bump) ∧
    (∀ i, i ∈ inputs → i.readOnly = false →
      (alookup (((ts₁.reset).write_object
        (gas.deduct_gas g0 g)).ensure_active_inputs_mutated).written i.id
        ).isSome) := by
  have hwr :
      (((ts₁.reset).write_object (gas.deduct_gas g0 g)
        ).ensure_active_inputs_mutated).written =
        ts₁.active_inputs.foldl (ensureStep ts₁.objects [])
          (ainsert [] (gas.deduct_gas g0 g).id (gas.deduct_gas g0 g)) := rfl
  have hgid : (gas.deduct_gas g0 g).id = g0.id := rfl
  refine ⟨?_, ?_, ?_⟩
  · rw [hwr]
    rw [ensureFold_preserve (by rw [hgid, alookup_ainsert_self]; rfl)]
    rw [hgid, alookup_ainsert_self]
  · intro id obj hlook hne
    rw [hwr] at hlook
    rcases ensureFold_lookup_elim hlook with hleft | ⟨⟨r, hr, hrid⟩, -, o, ho, hbump⟩
    · rw [alookup_ainsert, hgid] at hleft
      rw [if_neg (fun he => hne he.symm)] at hleft
      exact Option.noConfusion hleft
    · rw [hact] at hr
      obtain ⟨i, hi, hro, hri⟩ := mem_active_new.mp hr
      have hiid : i.id = id := by rw [← hrid, hri]; rfl
      rw [hobj, ← hiid] at ho
      have : o = i := Option.some_inj.mp ((new_objects_lookup hnd hi) ▸ ho).symm
      exact ⟨i, hi, hiid, hro, by rw [hbump, this]⟩
  · intro i hi hro
    by_cases hid : i.id = g0.id
    · rw [hwr, hid]
      rw [ensureFold_preserve (by rw [hgid, alookup_ainsert_self]; rfl)]
      rw [hgid, alookup_ainsert_self]
      rfl
    · rw [hwr]
      have hmem : i.ref ∈ ts₁.active_inputs := by
        rw [hact]
        exact mem_active_new.mpr ⟨i, hi, hro, rfl⟩
      have hos : (alookup ts₁.objects (Object.ref i).id).isSome := by
        rw [hobj]
        show (alookup (AuthorityTemporaryStore.new inputs d).objects i.id).isSome
        rw [new_objects_lookup hnd hi]
        rfl
      exact ensureFold_isSome_of_mem hmem hos (List.not_mem_nil _)

theorem success_written_char {inputs : List Object} {d : TransactionDigest}
    {ts₁ : AuthorityTemporaryStore}
    (hnd : (inputs.map Object.id).Nodup)
    (hobj : ts₁.objects = (AuthorityTemporaryStore.new inputs d).objects)
    (hact : ts₁.active_inputs =
      (AuthorityTemporaryStore.new inputs d).active_inputs)
    (hwb : WrittenBumps ts₁ inputs) :
    ∀ r ∈ ts₁.active_inputs, r.id ∉ ts₁.deleted →
      ∃ obj, alookup ts₁.ensure_active_inputs_mutated.written r.id = some obj ∧
        r.seq < obj.version := by
  intro r hr hdel
  obtain ⟨i, hi, hro, hri⟩ := mem_active_new.mp (hact ▸ hr)
  have hrid : r.id = i.id := by rw [hri]; rfl
  have hrseq : r.seq = i.version := by rw [hri]; rfl
  have hwreq : ts₁.ensure_active_inputs_mutated.written =
      ts₁.active_inputs.foldl (ensureStep ts₁.objects ts₁.deleted) ts₁.written := rfl
  rcases hw : alookup ts₁.written r.id with _ | v
  · have hos : (alookup ts₁.objects r.id).isSome := by
      rw [hobj, hrid]
      rw [new_objects_lookup hnd hi]
      rfl
    have hsome := ensureFold_isSome_of_mem (w := ts₁.written) hr hos hdel
    rcases hv : alookup (ts₁.active_inputs.foldl
        (ensureStep ts₁.objects ts₁.deleted) ts₁.written) r.id with _ | v
    · rw [hv] at hsome; exact absurd hsome (by simp)
    · rcases ensureFold_lookup_elim hv with hleft | ⟨-, -, o, ho, hbump⟩
      · rw [hw] at hleft; exact Option.noConfusion hleft
      · rw [hobj, hrid, new_objects_lookup hnd hi] at ho
        have hoi : o = i := (Option.some_inj.mp ho).symm
        refine ⟨v, by rw [hwreq, hv], ?_⟩
        rw [hbump, hoi, hrseq]
        show i.version < i.version + 1
        exact Nat.lt_succ_self _
  · refine ⟨v, ?_, ?_⟩
    · rw [hwreq, ensureFold_preserve (by rw [hw]; rfl), hw]
    · rw [hrseq]
      exact hwb r.id v hw i hi hrid.symm

/-! ## Claims C1, C3, C6 -/

/-- C1: the transfer handler's arity guard `!inputs.len() == 1` applies a
bitwise NOT, so it never fires: with zero non-gas inputs the handler panics
at `pop().unwrap()` (modelled as `none`), and with two non-gas inputs it
succeeds, instead of returning `Failure(ObjectInputArityViolation)` with the
minimum transfer gas as the specification requires. -/
theorem C1_transfer_arity_guard_is_broken :
    AuthorityState.transfer ts0 [] 55 objG = none ∧
    optStatusSuccess (AuthorityState.transfer ts0 [objA, objB] 55 objG) = true :=
  ⟨rfl, rfl⟩

/-- C3 (counterexample): a failed transfer execution (insufficient gas) whose
surviving write set contains the non-gas input object `A` re-written at a
strictly higher version — so the gas object is not the only write that
survives a failed execution. -/
theorem C3_only_gas_write_survives_counterexample :
    runIsFailure c3Run = true ∧ objA.id ≠ objGpoor.id ∧
    alookup (rrWritten c3Run) objA.id = some objA.bump :=
  ⟨rfl, by decide, rfl⟩

/-- C3 (amended): for every execution ending in `Failure`, the buffered
writes of the execution body are discarded and the gas object is re-written
with `gas_used` deducted; in addition, `ensure_active_inputs_mutated` (which
runs after the reset) re-writes every other mutable input at the next
version with unchanged content.  So the surviving write set is exactly the
deducted gas object plus a version bump of every other mutable input — not
the gas object alone. -/
theorem C3_failure_rollback_amended {ad : Adapter} {o : Order}
    {inputs : List Object} {d : TransactionDigest}
    {ts : AuthorityTemporaryStore} {g : Nat} {e : SuiError} {g0 : Object}
    (hg : inputs.getLast? = some g0)
    (hnd : (inputs.map Object.id).Nodup)
    (h : AuthorityState.execute_order ad o inputs d = .ok (ts, .Failure g e)) :
    alookup ts.written g0.id = some (gas.deduct_gas g0 g) ∧
    (∀ id obj, alookup ts.written id = some obj → id ≠ g0.id →
      ∃ i, i ∈ inputs ∧ i.id = id ∧ i.readOnly = false ∧ obj = i.bump) ∧
    (∀ i, i ∈ inputs → i.readOnly = false →
      (alookup ts.written i.id).isSome) := by
  obtain ⟨g0', hg', hfin⟩ := execute_order_ok_elim h
  rw [hg] at hg'
  have hg0 : g0' = g0 := (Option.some_inj.mp hg').symm
  subst hg0
  obtain ⟨ts₁, hbody, hcases⟩ := finishExecution_ok_elim hfin
  rcases hcases with ⟨gu, e', hst, hts⟩ | ⟨gg, hst, -⟩
  · obtain ⟨hgu, -⟩ := (ExecutionStatus.Failure.injEq _ _ _ _).mp hst
    obtain ⟨hobj, hact, -⟩ := executeBody_ok_elim hbody
    rw [hts, ← hgu]
    exact post_failure_written_char hnd hobj hact
  · exact absurd hst (fun hx => ExecutionStatus.noConfusion hx)

/-- C3 witness: in the concrete failed run, the poor gas object survives
with the minimum transfer gas deducted, and the other mutable input `A`
also appears in the surviving write set. -/
theorem C3_failure_rollback_amended_witness :
    alookup c3Ts.written objGpoor.id = some (gas.deduct_gas objGpoor 8) ∧
    (alookup c3Ts.written objA.id).isSome := by
  have h := @C3_failure_rollback_amended adapter0 orderPoor [objA, objGpoor]
    1001 c3Ts 8 (.InsufficientGas "Insufficient gas balance") objGpoor
    rfl (by decide) rfl
  exact ⟨h.1, h.2.2 objA (by simp) rfl⟩

/-- C6: for every successful execution, every mutable input (an entry of the
temporary store's `active_inputs`) that was not deleted appears in the final
write set at a strictly higher version than its input version — the
execution body's own writes bump versions (transfer and gas deduction do,
and the adapter does by the data-model hypothesis `AdapterBumpsInputs`),
and `ensure_active_inputs_mutated` bumps every untouched mutable input. -/
theorem C6_mutated_input_invariant {ad : Adapter} {o : Order}
    {inputs : List Object} {d : TransactionDigest}
    {ts : AuthorityTemporaryStore} {g : Nat}
    (hnd : (inputs.map Object.id).Nodup)
    (had : AdapterBumpsInputs ad inputs)
    (h : AuthorityState.execute_order ad o inputs d = .ok (ts, .Success g)) :
    ∀ r ∈ ts.active_inputs, r.id ∉ ts.deleted →
      ∃ obj, alookup ts.written r.id = some obj ∧ r.seq < obj.version := by
  obtain ⟨g0, hg', hfin⟩ := execute_order_ok_elim h
  obtain ⟨ts₁, hbody, hcases⟩ := finishExecution_ok_elim hfin
  rcases hcases with ⟨gu, e', hst, -⟩ | ⟨gg, hst, hts⟩
  · exact absurd hst (fun hx => ExecutionStatus.noConfusion hx)
  · obtain ⟨hobj, hact, hbranch⟩ := executeBody_ok_elim hbody
    have hg0mem : g0 ∈ inputs := List.mem_of_mem_getLast? hg'
    have hwb : WrittenBumps ts₁ inputs := by
      rcases hbranch with ⟨rec, oref, hk, ht⟩ | ⟨ws, ds, hts₁, hcall⟩
      · obtain ⟨out, hout, hro, hgc, htseq⟩ := transfer_success_elim ht
        have houtmem : out ∈ inputs :=
          (List.dropLast_sublist inputs).subset (List.mem_of_mem_getLast? hout)
        intro id v hlook i hi hid
        rw [htseq, write_object_written, write_object_written,
          alookup_ainsert] at hlook
        by_cases h1 : (out.transfer rec).id = id
        · rw [if_pos h1] at hlook
          have hv : v = out.transfer rec := (Option.some_inj.mp hlook).symm
          have hio : i = out := eq_of_mem_of_id_eq hnd hi houtmem (by
            rw [hid, ← h1]; rfl)
          rw [hv, hio]
          exact Nat.lt_succ_self _
        · rw [if_neg h1, alookup_ainsert] at hlook
          have hgid2 : ({ g0 with gasBalance := g0.gasBalance - g, version := g0.version + 1 } : Object).id = g0.id := rfl
          rw [hgid2] at hlook
          by_cases h2 : g0.id = id
          · rw [if_pos h2] at hlook
            have hv : v = { g0 with gasBalance := g0.gasBalance - g, version := g0.version + 1 } := (Option.some_inj.mp hlook).symm
            have hig : i = g0 := eq_of_mem_of_id_eq hnd hi hg0mem (by
              rw [hid, ← h2])
            rw [hv, hig]
            exact Nat.lt_succ_self _
          · rw [if_neg h2] at hlook
            exact Option.noConfusion hlook
      · intro id v hlook i hi hid
        rw [hts₁] at hlook
        rcases applyAdapterWrites_lookup_elim hlook with ⟨hv, hvid⟩ | hold
        · rcases hcall with ⟨pkg, he⟩ | ⟨mods, gb, he⟩
          · exact had.1 pkg _ g0 ws ds _ he v hv i hi (by rw [hvid, hid])
          · exact had.2 _ mods gb g0 ws ds _ he v hv i hi (by rw [hvid, hid])
        · exact absurd hold (by
            show alookup (AuthorityTemporaryStore.new inputs d).written id =
              some v → False
            intro hx
            exact Option.noConfusion hx)
    have hchar := success_written_char hnd hobj hact hwb
    intro r hr hdel
    rw [hts] at hr hdel ⊢
    exact hchar r hr hdel

/-- C6 witness: in the concrete successful transfer run, both mutable
inputs (`A` and the gas object `G`) appear in the final write set. -/
theorem C6_mutated_input_invariant_witness :
    (alookup c6Ts.written refA.id).isSome ∧
    (alookup c6Ts.written refG.id).isSome := by
  have had : AdapterBumpsInputs adapter0 [objA, objG] := by
    refine ⟨?_, ?_⟩
    · intro pkg args gasObj ws ds stt he w hw i hi hid
      simp only [adapter0, Except.ok.injEq, Prod.mk.injEq] at he
      rw [← he.1] at hw
      exact absurd hw (List.not_mem_nil w)
    · intro sender mods gb gasObj ws ds stt he w hw i hi hid
      simp only [adapter0, Except.ok.injEq, Prod.mk.injEq] at he
      rw [← he.1] at hw
      exact absurd hw (List.not_mem_nil w)
  have h := @C6_mutated_input_invariant adapter0 orderW [objA, objG]
    1000 c6Ts 4 (by decide) had rfl
  constructor
  · obtain ⟨obj, hobj, -⟩ := h refA (by decide) (by decide)
    rw [hobj]; rfl
  · obtain ⟨obj, hobj, -⟩ := h refG (by decide) (by decide)
    rw [hobj]; rfl

/-! ## The check_locks error-collection path and claim C5 -/

theorem checkLocksLoop_acc {order : Order} {addrs : List SuiAddress} :
    ∀ (pairs : List (InputObjectKind × Option Object))
      (acc : List (InputObjectKind × Object) × List SuiError),
    pairs.foldl (AuthorityState.checkLocksStep order addrs) acc =
      (acc.1 ++ AuthorityState.loopOks order addrs pairs,
        acc.2 ++ AuthorityState.loopErrors order addrs pairs) := by
  intro pairs
  induction pairs with
  | nil =>
    intro acc
    simp [AuthorityState.loopOks, AuthorityState.loopErrors]
  | cons p tl ih =>
    intro acc
    rw [List.foldl_cons, ih]
    rcases p with ⟨k, _ | obj⟩
    · simp only [AuthorityState.checkLocksStep, AuthorityState.loopOks,
        AuthorityState.loopErrors, List.filterMap_cons]
      simp
    · simp only [AuthorityState.checkLocksStep, AuthorityState.loopOks,
        AuthorityState.loopErrors, List.filterMap_cons]
      rcases hc : AuthorityState.check_one_lock order k obj addrs with u | e
      · simp
      · simp

theorem checkLocksLoop_eq {order : Order} {addrs : List SuiAddress}
    {pairs : List (InputObjectKind × Option Object)} :
    AuthorityState.checkLocksLoop order addrs pairs =
      (AuthorityState.loopOks order addrs pairs,
        AuthorityState.loopErrors order addrs pairs) := by
  rw [AuthorityState.checkLocksLoop, checkLocksLoop_acc]
  simp

theorem input_objects_isEmpty_false (o : Order) :
    o.input_objects.isEmpty = false := by
  rw [Order.input_objects]
  rcases o.kind with _ | _ | _ <;> simp

theorem check_locks_eq_of_errors {s : AuthorityStore} {o : Order}
    (hnd : (o.input_objects.map InputObjectKind.objectId).Nodup)
    (hne : perInputErrors s o ≠ []) :
    AuthorityState.check_locks s o =
      .error (.LockErrors (perInputErrors s o)) := by
  rw [AuthorityState.check_locks]
  rw [if_neg (by rw [input_objects_isEmpty_false]; exact Bool.false_ne_true)]
  rw [if_neg (not_not_intro hnd)]
  rw [if_pos]
  · rw [checkLocksLoop_eq]
    rfl
  · rw [checkLocksLoop_eq]
    show ¬ (AuthorityState.loopErrors o (AuthorityState.inputAddrs s o)
      (o.input_objects.zip (AuthorityState.resolvedInputs s o))).isEmpty = true
    rw [List.isEmpty_iff]
    exact hne

theorem check_locks_dup {s : AuthorityStore} {o : Order}
    (hnd : ¬ (o.input_objects.map InputObjectKind.objectId).Nodup) :
    AuthorityState.check_locks s o = .error .DuplicateObjectRefInput := by
  rw [AuthorityState.check_locks]
  rw [if_neg (by rw [input_objects_isEmpty_false]; exact Bool.false_ne_true)]
  rw [if_pos hnd]

theorem handle_order_of_check_locks_error {st : AuthorityState}
    {s : AuthorityStore} {o : Order} {e : SuiError}
    (hsig : o.sigOk = true)
    (hcl : AuthorityState.check_locks s o = .error e) :
    AuthorityState.handle_order st s o = (.error e, s) := by
  rw [AuthorityState.handle_order, Order.check_signature, if_pos hsig]
  simp only
  rw [hcl]

/-- C5: when an order has one or more invalid inputs, `check_locks` collects
one error per failing input in input order (`ObjectNotFound` for each
missing input, the per-input check error otherwise), does not short-circuit,
and returns them all inside a single aggregate `LockErrors`; `handle_order`
then fails without setting any lock — the store is returned unchanged. -/
theorem C5_lock_errors_collected {st : AuthorityState} {s : AuthorityStore}
    {o : Order}
    (hsig : o.sigOk = true)
    (hnd : (o.input_objects.map InputObjectKind.objectId).Nodup)
    (hne : perInputErrors s o ≠ []) :
    AuthorityState.check_locks s o =
      .error (.LockErrors (perInputErrors s o)) ∧
    AuthorityState.handle_order st s o =
      (.error (.LockErrors (perInputErrors s o)), s) :=
  ⟨check_locks_eq_of_errors hnd hne,
    handle_order_of_check_locks_error hsig (check_locks_eq_of_errors hnd hne)⟩

/-- C5 witness: submitting the transfer order against a store missing
object `A` collects exactly the error `ObjectNotFound A` inside a single
`LockErrors`, and leaves the store unchanged. -/
theorem C5_lock_errors_collected_witness :
    AuthorityState.check_locks storeMiss orderW =
      .error (.LockErrors (perInputErrors storeMiss orderW)) ∧
    AuthorityState.handle_order stW storeMiss orderW =
      (.error (.LockErrors (perInputErrors storeMiss orderW)), storeMiss) ∧
    perInputErrors storeMiss orderW = [.ObjectNotFound refA.id] := by
  have h := @C5_lock_errors_collected stW storeMiss orderW
    rfl (by decide)
    (by rw [show perInputErrors storeMiss orderW =
          [.ObjectNotFound refA.id] from rfl]
        simp)
  exact ⟨h.1, h.2, rfl⟩

/-! ## Failing inputs never lock -/

theorem zip_self_map {α β : Type} (h : α → β) :
    ∀ l : List α, l.zip (l.map h) = l.map (fun a => (a, h a)) := by
  intro l
  induction l with
  | nil => rfl
  | cons x xs ih => simp [ih]

theorem zip_resolved {s : AuthorityStore} {o : Order} :
    o.input_objects.zip (AuthorityState.resolvedInputs s o) =
      o.input_objects.map (fun a => (a, s.get_object a.objectId)) := by
  rw [AuthorityState.resolvedInputs, List.map_map, zip_self_map]
  rfl

theorem perInputErrors_ne_nil_of_failing {s : AuthorityStore} {o : Order}
    {k : InputObjectKind} {obj : Object} {e : SuiError}
    (hk : k ∈ o.input_objects)
    (hobj : s.get_object k.objectId = some obj)
    (hc : AuthorityState.check_one_lock o k obj (AuthorityState.inputAddrs s o) =
      .error e) :
    perInputErrors s o ≠ [] := by
  apply List.ne_nil_of_mem (a := e)
  rw [perInputErrors, AuthorityState.loopErrors]
  apply List.mem_filterMap.mpr
  refine ⟨(k, some obj), ?_, ?_⟩
  · rw [zip_resolved, ← hobj]
    exact List.mem_map_of_mem (fun a => (a, s.get_object a.objectId)) hk
  · simp only
    rw [hc]

theorem missing_input_error {s : AuthorityStore} {o : Order}
    {k : InputObjectKind}
    (hk : k ∈ o.input_objects)
    (hobj : s.get_object k.objectId = none) :
    SuiError.ObjectNotFound k.objectId ∈ perInputErrors s o := by
  rw [perInputErrors, AuthorityState.loopErrors]
  apply List.mem_filterMap.mpr
  refine ⟨(k, none), ?_, by simp only⟩
  rw [zip_resolved, ← hobj]
  exact List.mem_map_of_mem (fun a => (a, s.get_object a.objectId)) hk

theorem handle_order_err_of_failing_input {st : AuthorityState}
    {s : AuthorityStore} {o : Order} {k : InputObjectKind} {obj : Object}
    {e : SuiError}
    (hsig : o.sigOk = true)
    (hk : k ∈ o.input_objects)
    (hobj : s.get_object k.objectId = some obj)
    (hc : AuthorityState.check_one_lock o k obj (AuthorityState.inputAddrs s o) =
      .error e) :
    ∃ e', AuthorityState.handle_order st s o = (.error e', s) := by
  by_cases hnd : (o.input_objects.map InputObjectKind.objectId).Nodup
  · exact ⟨_, handle_order_of_check_locks_error hsig
      (check_locks_eq_of_errors hnd (perInputErrors_ne_nil_of_failing hk hobj hc))⟩
  · exact ⟨_, handle_order_of_check_locks_error hsig (check_locks_dup hnd)⟩

/-! ## Claims C7, C8, C9 -/

/-- C7 (counterexample): a declared input whose stored version AND digest
both differ from the declared ones fails with `UnexpectedSequenceNumber`
(the version check runs first), not with `InvalidObjectDigest` as the claim
demands for every digest mismatch. -/
theorem C7_version_digest_counterexample :
    objBoth.version ≠ refBoth.seq ∧ objBoth.digest ≠ refBoth.digest ∧
    AuthorityState.check_one_lock ord7 (.MoveObject refBoth) objBoth
      (AuthorityState.inputAddrs store7 ord7) =
      .error (.UnexpectedSequenceNumber refBoth.id objBoth.version) :=
  ⟨by decide, by decide, rfl⟩

/-- C7 (amended): for a declared Move-object input (with an admissible
declared sequence number), a stored-vs-declared version mismatch fails with
`UnexpectedSequenceNumber`; when the version matches but the digest
differs, the check fails with `InvalidObjectDigest` (the version check takes
precedence); and whenever any resolved input's per-input check fails, the
submission fails and the store — and hence every lock — is unchanged. -/
theorem C7_version_digest_amended :
    (∀ (o : Order) (r : ObjectRef) (obj : Object) (addrs : List SuiAddress),
      r.seq ≤ SEQUENCE_NUMBER_MAX → obj.version ≠ r.seq →
      AuthorityState.check_one_lock o (.MoveObject r) obj addrs =
        .error (.UnexpectedSequenceNumber r.id obj.version)) ∧
    (∀ (o : Order) (r : ObjectRef) (obj : Object) (addrs : List SuiAddress),
      r.seq ≤ SEQUENCE_NUMBER_MAX → obj.version = r.seq →
      obj.digest ≠ r.digest →
      AuthorityState.check_one_lock o (.MoveObject r) obj addrs =
        .error (.InvalidObjectDigest r.id r.digest)) ∧
    (∀ (st : AuthorityState) (s : AuthorityStore) (o : Order)
      (k : InputObjectKind) (obj : Object) (e : SuiError),
      o.sigOk = true → k ∈ o.input_objects →
      s.get_object k.objectId = some obj →
      AuthorityState.check_one_lock o k obj (AuthorityState.inputAddrs s o) =
        .error e →
      ∃ e', AuthorityState.handle_order st s o = (.error e', s)) := by
  refine ⟨?_, ?_, ?_⟩
  · intro o r obj addrs hseq hver
    simp only [AuthorityState.check_one_lock]
    rw [if_neg (not_not_intro hseq), if_pos hver]
  · intro o r obj addrs hseq hver hd
    simp only [AuthorityState.check_one_lock]
    rw [if_neg (not_not_intro hseq), if_neg (not_not_intro hver), if_pos hd]
  · intro st s o k obj e hsig hk hobj hc
    exact handle_order_err_of_failing_input hsig hk hobj hc

/-- C7 witness: the amended claim applied at the concrete mismatch fixture —
a both-mismatch input fails with `UnexpectedSequenceNumber`, the
version-match digest-mismatch variant fails with `InvalidObjectDigest`, and
the submission of the mismatching order leaves the store unchanged. -/
theorem C7_version_digest_amended_witness :
    AuthorityState.check_one_lock ord7 (.MoveObject refBoth) objBoth
      (AuthorityState.inputAddrs store7 ord7) =
      .error (.UnexpectedSequenceNumber refBoth.id objBoth.version) ∧
    AuthorityState.check_one_lock ord7 (.MoveObject ⟨5, 4, 77⟩) objBoth
      (AuthorityState.inputAddrs store7 ord7) =
      .error (.InvalidObjectDigest 5 77) ∧
    (AuthorityState.handle_order stW store7 ord7).2 = store7 := by
  refine ⟨?_, ?_, ?_⟩
  · exact C7_version_digest_amended.1 ord7 refBoth objBoth
      (AuthorityState.inputAddrs store7 ord7) (by decide) (by decide)
  · exact C7_version_digest_amended.2.1 ord7 ⟨5, 4, 77⟩ objBoth
      (AuthorityState.inputAddrs store7 ord7) (by decide) (by decide) (by decide)
  · obtain ⟨e', he⟩ := C7_version_digest_amended.2.2 stW store7 ord7
      (.MoveObject refBoth) objBoth
      (.UnexpectedSequenceNumber refBoth.id objBoth.version)
      rfl (by decide) rfl rfl
    rw [he]

/-- C8 (counterexample): a mutable object owned by its own address (owner =
its id), with a sender who is not that owner and no other input at that
address, passes the per-input ownership check — the address set computed by
`check_locks` contains the object itself, so "owned by ANOTHER mutable
object" is not what the code enforces. -/
theorem C8_owner_check_counterexample :
    objSelf.readOnly = false ∧
    objSelf.owner ≠ ord8.sender_address ∧
    objSelf.owner ≠ idToAddress gas9.id ∧
    AuthorityState.check_one_lock ord8 (.MoveObject refSelf) objSelf
      (AuthorityState.inputAddrs store8 ord8) = .ok () ∧
    AuthorityState.check_locks store8 ord8 =
      .ok [(.MoveObject refSelf, objSelf), (.MoveObject ref9, gas9)] :=
  ⟨rfl, by decide, by decide, rfl, rfl⟩

/-- C8 (amended): for a mutable Move-object input that passes the
version/digest checks, the per-input check fails with `IncorrectSigner`
exactly when the object's owner is neither the sender nor an address in the
mutable-object address set; for a non-gas input the check succeeds iff the
owner is the sender or in that set.  The set contains the address of every
resolved mutable input — including the checked object itself. -/
theorem C8_owner_check_amended :
    (∀ (o : Order) (r : ObjectRef) (obj : Object) (addrs : List SuiAddress),
      obj.readOnly = false → r.seq ≤ SEQUENCE_NUMBER_MAX →
      obj.version = r.seq → obj.digest = r.digest →
      ¬ (o.sender_address = obj.owner ∨ obj.owner ∈ addrs) →
      AuthorityState.check_one_lock o (.MoveObject r) obj addrs =
        .error .IncorrectSigner) ∧
    (∀ (o : Order) (r : ObjectRef) (obj : Object) (addrs : List SuiAddress),
      obj.readOnly = false → r.seq ≤ SEQUENCE_NUMBER_MAX →
      obj.version = r.seq → obj.digest = r.digest →
      r.id ≠ o.gas_payment_object_ref.id →
      (AuthorityState.check_one_lock o (.MoveObject r) obj addrs = .ok () ↔
        (o.sender_address = obj.owner ∨ obj.owner ∈ addrs))) ∧
    (∀ (s : AuthorityStore) (o : Order) (k : InputObjectKind) (obj : Object),
      s.get_object k.objectId = some obj → k ∈ o.input_objects →
      obj.readOnly = false →
      idToAddress obj.id ∈ AuthorityState.inputAddrs s o) := by
  refine ⟨?_, ?_, ?_⟩
  · intro o r obj addrs hro hseq hver hd hown
    simp only [AuthorityState.check_one_lock]
    rw [if_neg (not_not_intro hseq), if_neg (not_not_intro hver),
      if_neg (not_not_intro hd), if_neg (by rw [hro]; exact Bool.false_ne_true),
      if_pos hown]
  · intro o r obj addrs hro hseq hver hd hgas
    simp only [AuthorityState.check_one_lock]
    rw [if_neg (not_not_intro hseq), if_neg (not_not_intro hver),
      if_neg (not_not_intro hd), if_neg (by rw [hro]; exact Bool.false_ne_true)]
    by_cases hown : o.sender_address = obj.owner ∨ obj.owner ∈ addrs
    · rw [if_neg (not_not_intro hown), if_neg hgas]
      exact iff_of_true rfl hown
    · rw [if_pos hown]
      exact iff_of_false (fun hx => Except.noConfusion hx) hown
  · intro s o k obj hobj hk hro
    rw [AuthorityState.inputAddrs, AuthorityState.mutableObjectAddresses]
    apply List.mem_filterMap.mpr
    refine ⟨some obj, ?_, by simp [hro]⟩
    rw [AuthorityState.resolvedInputs, List.map_map, ← hobj]
    exact List.mem_map_of_mem (s.get_object ∘ InputObjectKind.objectId) hk

/-- C8 witness: the amended claim at concrete inputs — a stranger-owned
mutable object fails with `IncorrectSigner`, the success of the per-input
check for the self-owned object is equivalent to its owner being in the
address set, and the self-owned object's own address is in the set computed
for its order. -/
theorem C8_owner_check_amended_witness :
    AuthorityState.check_one_lock ord8 (.MoveObject refStranger) objStranger
      [idToAddress gas9.id] = .error .IncorrectSigner ∧
    (AuthorityState.check_one_lock ord8 (.MoveObject refSelf) objSelf
      (AuthorityState.inputAddrs store8 ord8) = .ok () ↔
      (ord8.sender_address = objSelf.owner ∨
        objSelf.owner ∈ AuthorityState.inputAddrs store8 ord8)) ∧
    idToAddress objSelf.id ∈ AuthorityState.inputAddrs store8 ord8 := by
  refine ⟨?_, ?_, ?_⟩
  · exact C8_owner_check_amended.1 ord8 refStranger objStranger
      [idToAddress gas9.id] rfl (by decide) rfl rfl (by decide)
  · exact C8_owner_check_amended.2.1 ord8 refSelf objSelf
      (AuthorityState.inputAddrs store8 ord8) rfl (by decide) rfl rfl (by decide)
  · exact C8_owner_check_amended.2.2 store8 ord8 (.MoveObject refSelf) objSelf
      rfl (by decide) rfl

/-- C9: for a read-only Move-object input that passes the version/digest
checks, the ownership check is skipped entirely — the outcome does not
depend on the object's owner — and the check succeeds unless the read-only
object is declared as the gas-payment object, in which case it fails with
`InsufficientGas`. -/
theorem C9_read_only_checks {o : Order} {r : ObjectRef} {obj : Object}
    {addrs : List SuiAddress}
    (hro : obj.readOnly = true)
    (hseq : r.seq ≤ SEQUENCE_NUMBER_MAX)
    (hver : obj.version = r.seq)
    (hd : obj.digest = r.digest) :
    (r.id = o.gas_payment_object_ref.id →
      AuthorityState.check_one_lock o (.MoveObject r) obj addrs =
        .error (.InsufficientGas "Gas object should not be immutable")) ∧
    (r.id ≠ o.gas_payment_object_ref.id →
      AuthorityState.check_one_lock o (.MoveObject r) obj addrs = .ok ()) ∧
    (∀ a : SuiAddress,
      AuthorityState.check_one_lock o (.MoveObject r) { obj with owner := a }
        addrs =
      AuthorityState.check_one_lock o (.MoveObject r) obj addrs) := by
  refine ⟨?_, ?_, ?_⟩
  · intro hgas
    simp only [AuthorityState.check_one_lock]
    rw [if_neg (not_not_intro hseq), if_neg (not_not_intro hver),
      if_neg (not_not_intro hd), if_pos hro, if_pos hgas]
  · intro hgas
    simp only [AuthorityState.check_one_lock]
    rw [if_neg (not_not_intro hseq), if_neg (not_not_intro hver),
      if_neg (not_not_intro hd), if_pos hro, if_neg hgas]
  · intro a
    have h1 : AuthorityState.check_one_lock o (.MoveObject r)
        { obj with owner := a } addrs =
        (if r.id = o.gas_payment_object_ref.id then
          Except.error (SuiError.InsufficientGas
            "Gas object should not be immutable")
        else Except.ok ()) := by
      simp only [AuthorityState.check_one_lock]
      rw [if_neg (not_not_intro hseq)]
      rw [show ({ obj with owner := a } : Object).version = obj.version from rfl]
      rw [show ({ obj with owner := a } : Object).digest = obj.digest from rfl]
      rw [if_neg (not_not_intro hver), if_neg (not_not_intro hd)]
      rw [show ({ obj with owner := a } : Object).readOnly = obj.readOnly from rfl]
      rw [if_pos hro]
    have h2 : AuthorityState.check_one_lock o (.MoveObject r) obj addrs =
        (if r.id = o.gas_payment_object_ref.id then
          Except.error (SuiError.InsufficientGas
            "Gas object should not be immutable")
        else Except.ok ()) := by
      simp only [AuthorityState.check_one_lock]
      rw [if_neg (not_not_intro hseq), if_neg (not_not_intro hver),
        if_neg (not_not_intro hd), if_pos hro]
    rw [h1, h2]

/-- C9 witness: the read-only object fixture — declared as gas it fails with
`InsufficientGas`, declared as a plain input it passes, and replacing its
owner by an arbitrary address (42) does not change the outcome. -/
theorem C9_read_only_checks_witness :
    AuthorityState.check_one_lock ordROgas (.MoveObject refRO) objRO [] =
      .error (.InsufficientGas "Gas object should not be immutable") ∧
    AuthorityState.check_one_lock ordROin (.MoveObject refRO) objRO [] = .ok () ∧
    AuthorityState.check_one_lock ordROin (.MoveObject refRO)
      { objRO with owner := 42 } [] =
      AuthorityState.check_one_lock ordROin (.MoveObject refRO) objRO [] := by
  refine ⟨?_, ?_, ?_⟩
  · exact (@C9_read_only_checks ordROgas refRO objRO []
      rfl (by decide) rfl rfl).1 rfl
  · exact (@C9_read_only_checks ordROin refRO objRO []
      rfl (by decide) rfl rfl).2.1 (by decide)
  · exact (@C9_read_only_checks ordROin refRO objRO []
      rfl (by decide) rfl rfl).2.2 42

/-! ## Lock-setting and submission lemmas -/

theorem sol_ok_elim {s : AuthorityStore} {refs : List ObjectRef}
    {so : SignedOrder} {s' : AuthorityStore}
    (h : s.set_order_lock refs so = .ok s') :
    (∀ r ∈ refs, alookup s.order_locks r = some none ∨
      alookup s.order_locks r = some (some so)) ∧
    s' = { s with
      order_locks := ainsertMany s.order_locks
        (refs.map (fun r => (r, some so)))
      signedOrders := ainsert s.signedOrders so.order.txDigest so } := by
  rw [AuthorityStore.set_order_lock] at h
  rcases hf : refs.findSome? (fun r =>
      match alookup s.order_locks r with
      | none => some SuiError.OrderLockDoesNotExist
      | some none => none
      | some (some existing) =>
          if existing = so then none else some SuiError.LockConflict) with _ | e <;>
    rw [hf] at h
  · simp only [Except.ok.injEq] at h
    refine ⟨?_, h.symm⟩
    intro r hr
    have hfr := List.findSome?_eq_none_iff.mp hf r hr
    rcases hl : alookup s.order_locks r with _ | lk
    · simp only [hl] at hfr
      exact Option.noConfusion hfr
    · rcases lk with _ | ex
      · exact Or.inl rfl
      · simp only [hl] at hfr
        by_cases hex : ex = so
        · exact Or.inr (by rw [hex])
        · rw [if_neg hex] at hfr
          exact absurd hfr (by simp)
  · exact Except.noConfusion h

theorem sol_ok_intro {s : AuthorityStore} {refs : List ObjectRef}
    {so : SignedOrder}
    (h : ∀ r ∈ refs, alookup s.order_locks r = some none ∨
      alookup s.order_locks r = some (some so)) :
    s.set_order_lock refs so = .ok { s with
      order_locks := ainsertMany s.order_locks
        (refs.map (fun r => (r, some so)))
      signedOrders := ainsert s.signedOrders so.order.txDigest so } := by
  rw [AuthorityStore.set_order_lock]
  have hf : refs.findSome? (fun r =>
      match alookup s.order_locks r with
      | none => some SuiError.OrderLockDoesNotExist
      | some none => none
      | some (some existing) =>
          if existing = so then none else some SuiError.LockConflict) = none := by
    apply List.findSome?_eq_none_iff.mpr
    intro r hr
    rcases h r hr with hl | hl <;> rw [hl] <;> simp
  rw [hf]

theorem get_object_congr {s₁ s₂ : AuthorityStore}
    (h : s₁.objects = s₂.objects) : s₁.get_object = s₂.get_object := by
  funext id
  rw [AuthorityStore.get_object, AuthorityStore.get_object, h]

theorem check_locks_objects_congr {s₁ s₂ : AuthorityStore} {o : Order}
    (h : s₁.objects = s₂.objects) :
    AuthorityState.check_locks s₁ o = AuthorityState.check_locks s₂ o := by
  simp only [AuthorityState.check_locks, AuthorityState.inputAddrs,
    AuthorityState.resolvedInputs, get_object_congr h]

theorem handle_order_ok_elim {st : AuthorityState} {s : AuthorityStore}
    {o : Order} {r : OrderInfoResponse} {s' : AuthorityStore}
    (h : AuthorityState.handle_order st s o = (.ok r, s')) :
    o.sigOk = true ∧
    ∃ objs, AuthorityState.check_locks s o = .ok objs ∧
      s.set_order_lock (AuthorityState.mutableInputRefs objs)
        (SignedOrder.new o st.name st.secret) = .ok s' ∧
      r = s'.get_order_info o.digest := by
  rw [AuthorityState.handle_order] at h
  rcases hcs : o.check_signature with e | u <;> rw [hcs] at h
  · simp only [Prod.mk.injEq] at h
    exact absurd h.1 (fun hx => Except.noConfusion hx)
  · have hsig : o.sigOk = true := by
      rcases hb : o.sigOk
      · rw [Order.check_signature] at hcs
        rw [if_neg (by rw [hb]; exact Bool.false_ne_true)] at hcs
        exact Except.noConfusion hcs
      · rfl
    refine ⟨hsig, ?_⟩
    simp only at h
    rcases hcl : AuthorityState.check_locks s o with e | objs <;> rw [hcl] at h
    · simp only [Prod.mk.injEq] at h
      exact absurd h.1 (fun hx => Except.noConfusion hx)
    · simp only at h
      rcases hsol : s.set_order_lock (AuthorityState.mutableInputRefs objs)
          (SignedOrder.new o st.name st.secret) with e | s'' <;> rw [hsol] at h
      · simp only [Prod.mk.injEq] at h
        exact absurd h.1 (fun hx => Except.noConfusion hx)
      · simp only [Prod.mk.injEq, Except.ok.injEq] at h
        obtain ⟨h1, h2⟩ := h
        subst h2
        exact ⟨objs, rfl, hsol, h1.symm⟩

theorem handle_order_ok_intro {st : AuthorityState} {s : AuthorityStore}
    {o : Order} {objs : List (InputObjectKind × Object)} {s' : AuthorityStore}
    (hsig : o.sigOk = true)
    (hcl : AuthorityState.check_locks s o = .ok objs)
    (hsol : s.set_order_lock (AuthorityState.mutableInputRefs objs)
      (SignedOrder.new o st.name st.secret) = .ok s') :
    AuthorityState.handle_order st s o =
      (.ok (s'.get_order_info o.digest), s') := by
  rw [AuthorityState.handle_order, Order.check_signature, if_pos hsig]
  simp only
  rw [hcl]
  simp only
  rw [hsol]

/-! ## Claims C4 and C10 -/

theorem mem_mutableInputRefs {objs : List (InputObjectKind × Object)}
    {ref : ObjectRef} :
    ref ∈ AuthorityState.mutableInputRefs objs ↔
      ∃ obj, (InputObjectKind.MoveObject ref, obj) ∈ objs ∧
        obj.readOnly = false := by
  rw [AuthorityState.mutableInputRefs, List.mem_filterMap]
  constructor
  · rintro ⟨⟨k, obj⟩, hmem, hf⟩
    rcases k with pid | r0
    · simp only at hf
      exact Option.noConfusion hf
    · simp only at hf
      by_cases hro : obj.readOnly = true
      · rw [if_pos hro] at hf
        exact Option.noConfusion hf
      · rw [if_neg hro] at hf
        have hr0 : r0 = ref := Option.some_inj.mp hf
        subst hr0
        exact ⟨obj, hmem, by simpa using hro⟩
  · rintro ⟨obj, hmem, hro⟩
    refine ⟨(.MoveObject ref, obj), hmem, ?_⟩
    simp only
    rw [if_neg (by rw [hro]; exact Bool.false_ne_true)]

/-- C4: submitting the same `Order` twice yields the identical response
(carrying the identical `SignedOrder`) both times; the second call returns
the response now recorded in the store for the order's transaction digest
and leaves every lock slot unchanged; and a submission never transitions a
lock slot from one signed order to a different one — any slot locked before
the call holds the same signed order after it. -/
theorem C4_submission_idempotent {st : AuthorityState} {s : AuthorityStore}
    {o : Order} {r : OrderInfoResponse} {s' : AuthorityStore}
    (h : AuthorityState.handle_order st s o = (.ok r, s')) :
    (∃ s'', AuthorityState.handle_order st s' o = (.ok r, s'') ∧
      ∀ ref, alookup s''.order_locks ref = alookup s'.order_locks ref) ∧
    (∀ ref so1, alookup s.order_locks ref = some (some so1) →
      alookup s'.order_locks ref = some (some so1)) ∧
    r.signed_order = some (SignedOrder.new o st.name st.secret) := by
  obtain ⟨hsig, objs, hcl, hsol, hr⟩ := handle_order_ok_elim h
  obtain ⟨hpre, hs'⟩ := sol_ok_elim hsol
  have hobj' : s'.objects = s.objects := by rw [hs']
  have hlocks' : s'.order_locks = ainsertMany s.order_locks
      ((AuthorityState.mutableInputRefs objs).map
        (fun r => (r, some (SignedOrder.new o st.name st.secret)))) := by
    rw [hs']
  have hsigned' : s'.signedOrders = ainsert s.signedOrders
      (SignedOrder.new o st.name st.secret).order.txDigest
      (SignedOrder.new o st.name st.secret) := by
    rw [hs']
  have hlook' : ∀ ref, alookup s'.order_locks ref =
      if ref ∈ AuthorityState.mutableInputRefs objs then
        some (some (SignedOrder.new o st.name st.secret))
      else alookup s.order_locks ref := by
    intro ref
    rw [hlocks', alookup_ainsertMany_const]
  refine ⟨?_, ?_, ?_⟩
  · have hcl2 : AuthorityState.check_locks s' o = .ok objs := by
      rw [check_locks_objects_congr hobj', hcl]
    have hpre2 : ∀ ref ∈ AuthorityState.mutableInputRefs objs,
        alookup s'.order_locks ref = some none ∨
        alookup s'.order_locks ref =
          some (some (SignedOrder.new o st.name st.secret)) := by
      intro ref hrf
      right
      rw [hlook', if_pos hrf]
    have hsol2 := sol_ok_intro hpre2
    have h2 := handle_order_ok_intro hsig hcl2 hsol2
    refine ⟨{ s' with
        order_locks := ainsertMany s'.order_locks
          ((AuthorityState.mutableInputRefs objs).map
            (fun r => (r, some (SignedOrder.new o st.name st.secret))))
        signedOrders := ainsert s'.signedOrders
          (SignedOrder.new o st.name st.secret).order.txDigest
          (SignedOrder.new o st.name st.secret) }, ?_, ?_⟩
    · rw [h2]
      have hresp :
          AuthorityStore.get_order_info { s' with
            order_locks := ainsertMany s'.order_locks
              ((AuthorityState.mutableInputRefs objs).map
                (fun r => (r, some (SignedOrder.new o st.name st.secret))))
            signedOrders := ainsert s'.signedOrders
              (SignedOrder.new o st.name st.secret).order.txDigest
              (SignedOrder.new o st.name st.secret) } o.digest = r := by
        rw [hr]
        simp only [AuthorityStore.get_order_info]
        have h1 : alookup (ainsert s'.signedOrders
            (SignedOrder.new o st.name st.secret).order.txDigest
            (SignedOrder.new o st.name st.secret)) o.digest =
            alookup s'.signedOrders o.digest := by
          rw [show (SignedOrder.new o st.name st.secret).order.txDigest =
            o.digest from rfl]
          rw [alookup_ainsert_self, hsigned']
          rw [show (SignedOrder.new o st.name st.secret).order.txDigest =
            o.digest from rfl]
          rw [alookup_ainsert_self]
        rw [h1]
      rw [hresp]
    · intro ref
      show alookup (ainsertMany s'.order_locks
          ((AuthorityState.mutableInputRefs objs).map
            (fun r => (r, some (SignedOrder.new o st.name st.secret))))) ref =
        alookup s'.order_locks ref
      rw [alookup_ainsertMany_const]
      by_cases hm : ref ∈ AuthorityState.mutableInputRefs objs
      · rw [if_pos hm, hlook', if_pos hm]
      · rw [if_neg hm]
  · intro ref so1 hs1
    rw [hlook']
    by_cases hm : ref ∈ AuthorityState.mutableInputRefs objs
    · rw [if_pos hm]
      rcases hpre ref hm with hnone | hsome
      · rw [hs1] at hnone
        exact absurd (Option.some_inj.mp hnone) (by simp)
      · rw [hs1] at hsome
        rw [Option.some_inj.mp (Option.some_inj.mp hsome)]
    · rw [if_neg hm]
      exact hs1
  · rw [hr]
    show alookup s'.signedOrders o.digest =
      some (SignedOrder.new o st.name st.secret)
    rw [hsigned']
    rw [show (SignedOrder.new o st.name st.secret).order.txDigest =
      o.digest from rfl]
    rw [alookup_ainsert_self]

/-- C4 witness: resubmitting the concrete transfer order to the
post-submission store returns the same response, which carries the
authority's signed order. -/
theorem C4_submission_idempotent_witness :
    (AuthorityState.handle_order stW hoStore orderW).1 = .ok hoResp ∧
    hoResp.signed_order = some (SignedOrder.new orderW stW.name stW.secret) := by
  obtain ⟨⟨s'', h2, -⟩, -, hsig⟩ :=
    @C4_submission_idempotent stW storeW orderW hoResp hoStore rfl
  exact ⟨by rw [h2], hsig⟩

/-- C10: for every accepted order, the references passed to the lock table
are exactly the resolved Move-object inputs that are not read-only: a
reference is locked (set to the signed order) iff it is such an input, and
the lock state of every other reference — in particular of every package
and of every read-only input — is unchanged by the submission. -/
theorem C10_locked_refs_exact {st : AuthorityState} {s : AuthorityStore}
    {o : Order} {r : OrderInfoResponse} {s' : AuthorityStore}
    {objs : List (InputObjectKind × Object)}
    (h : AuthorityState.handle_order st s o = (.ok r, s'))
    (hcl : AuthorityState.check_locks s o = .ok objs) :
    (∀ ref, ref ∈ AuthorityState.mutableInputRefs objs ↔
      ∃ obj, (InputObjectKind.MoveObject ref, obj) ∈ objs ∧
        obj.readOnly = false) ∧
    (∀ ref, ref ∉ AuthorityState.mutableInputRefs objs →
      alookup s'.order_locks ref = alookup s.order_locks ref) ∧
    (∀ ref, ref ∈ AuthorityState.mutableInputRefs objs →
      alookup s'.order_locks ref =
        some (some (SignedOrder.new o st.name st.secret))) := by
  obtain ⟨-, objs', hcl', hsol, -⟩ := handle_order_ok_elim h
  have hoo : objs' = objs := by
    rw [hcl] at hcl'
    simp only [Except.ok.injEq] at hcl'
    exact hcl'.symm
  subst hoo
  obtain ⟨-, hs'⟩ := sol_ok_elim hsol
  have hlook' : ∀ ref, alookup s'.order_locks ref =
      if ref ∈ AuthorityState.mutableInputRefs objs' then
        some (some (SignedOrder.new o st.name st.secret))
      else alookup s.order_locks ref := by
    intro ref
    rw [hs']
    show alookup (ainsertMany s.order_locks
      ((AuthorityState.mutableInputRefs objs').map
        (fun r => (r, some (SignedOrder.new o st.name st.secret))))) ref = _
    rw [alookup_ainsertMany_const]
  refine ⟨fun ref => mem_mutableInputRefs, ?_, ?_⟩
  · intro ref hm
    rw [hlook', if_neg hm]
  · intro ref hm
    rw [hlook', if_pos hm]

/-- C10 witness: after the concrete submission, both mutable input
references are locked to the signed order, while an unrelated reference's
lock state is unchanged. -/
theorem C10_locked_refs_exact_witness :
    alookup hoStore.order_locks refA =
      some (some (SignedOrder.new orderW stW.name stW.secret)) ∧
    alookup hoStore.order_locks refG =
      some (some (SignedOrder.new orderW stW.name stW.secret)) ∧
    alookup hoStore.order_locks refOther =
      alookup storeW.order_locks refOther := by
  obtain ⟨-, hframe, hset⟩ :=
    @C10_locked_refs_exact stW storeW orderW hoResp hoStore
      [(.MoveObject refA, objA), (.MoveObject refG, objG)]
      rfl rfl
  exact ⟨hset refA (by decide), hset refG (by decide), hframe refOther (by decide)⟩

/-! ## Claim C2 -/

theorem confirmFinish_spec {st : AuthorityState} {s : AuthorityStore}
    {cert : CertifiedOrder} {objs : List (InputObjectKind × Object)}
    {ts : AuthorityTemporaryStore} {status : ExecutionStatus} :
    ∃ sF, AuthorityState.confirmFinish st s cert objs ts status =
      .ok (sF.get_order_info cert.order.txDigest, sF, 1) ∧
      alookup sF.certificates cert.order.txDigest = some cert := by
  refine ⟨_, rfl, ?_⟩
  exact alookup_ainsert_self

/-- C2: confirming the same `CertifiedOrder` twice returns the same
`OrderInfoResponse` both times and performs the persistent write
(`update_state`) exactly once: whatever the first call did, it performed at
most one write, and the second call — run against the resulting store, whose
response for the transaction digest now records the certificate — returns
that stored response unchanged, performs no write, and leaves the store as
it was. -/
theorem C2_confirmation_idempotent {st : AuthorityState} {ad : Adapter}
    {s : AuthorityStore} {co : ConfirmationOrder} {r : OrderInfoResponse}
    {s₁ : AuthorityStore} {n : Nat}
    (h : AuthorityState.handle_confirmation_order st ad s co = .ok (r, s₁, n)) :
    AuthorityState.handle_confirmation_order st ad s₁ co = .ok (r, s₁, 0) ∧
      n ≤ 1 := by
  rw [AuthorityState.handle_confirmation_order] at h
  rcases hc : co.certificate.check st.committee with e | u <;> rw [hc] at h
  · simp only at h
    exact absurd h (fun hx => RunResult.noConfusion hx)
  · simp only at h
    by_cases hi : (s.get_order_info
        co.certificate.order.digest).certified_order.isSome = true
    · rw [if_pos hi] at h
      simp only [RunResult.ok.injEq, Prod.mk.injEq] at h
      obtain ⟨h1, h2, h3⟩ := h
      subst h1
      subst h2
      subst h3
      refine ⟨?_, Nat.zero_le 1⟩
      rw [AuthorityState.handle_confirmation_order, hc]
      simp only
      rw [if_pos hi]
    · rw [if_neg hi] at h
      rcases hcl : AuthorityState.check_locks s co.certificate.order
        with e | objs <;> rw [hcl] at h
      · simp only at h
        exact absurd h (fun hx => RunResult.noConfusion hx)
      · simp only at h
        rcases hex : AuthorityState.execute_order ad co.certificate.order
            (objs.map (fun p => p.2)) co.certificate.order.digest
          with _ | e | ⟨tsE, status⟩ <;> rw [hex] at h
        · exact absurd h (fun hx => RunResult.noConfusion hx)
        · exact absurd h (fun hx => RunResult.noConfusion hx)
        · simp only at h
          obtain ⟨sF, hcf, hcert⟩ :=
            @confirmFinish_spec st s co.certificate objs tsE status
          rw [hcf] at h
          simp only [RunResult.ok.injEq, Prod.mk.injEq] at h
          obtain ⟨h1, h2, h3⟩ := h
          subst h1
          subst h2
          subst h3
          refine ⟨?_, Nat.le_refl 1⟩
          rw [AuthorityState.handle_confirmation_order, hc]
          simp only
          rw [if_pos ?hsome]
          case hsome =>
            show (alookup sF.certificates co.certificate.order.digest).isSome =
              true
            rw [show (co.certificate.order.digest : Nat) =
              co.certificate.order.txDigest from rfl]
            rw [hcert]
            rfl
          rfl

/-- C2 witness: the concrete confirmation of `confW` against `storeW`
performs its single write; replaying it against the resulting store returns
the identical response with no further write. -/
theorem C2_confirmation_idempotent_witness :
    AuthorityState.handle_confirmation_order stW adapter0 storeW confW =
      .ok c2Triple ∧
    AuthorityState.handle_confirmation_order stW adapter0 c2Triple.2.1 confW =
      .ok (c2Triple.1, c2Triple.2.1, 0) ∧
    c2Triple.2.2 ≤ 1 := by
  have h := @C2_confirmation_idempotent stW adapter0 storeW confW
    c2Triple.1 c2Triple.2.1 c2Triple.2.2 rfl
  exact ⟨rfl, h.1, h.2⟩

end Sui
